import Mathlib

/-!
Verification development for the obj2voxel voxelizer.

The geometric core (`src/voxelization.cpp`, namespace `obj2voxels`) and the
threaded driver (`src/src/filevoxelization.cpp`, namespace `obj2voxel`) are
shallowly embedded here.  Coordinates and all splitter arithmetic are modelled
by exact rationals (the C++ `real_type` idealised to exact arithmetic); norms,
areas and normalised vectors live in the reals, through `Real.sqrt`.

Types that come from headers missing in `src/` (`triangle.hpp`, `util.hpp`,
the old `voxelization.hpp`) are modelled from the specification; each such
definition carries a doc comment saying so.
-/

namespace Obj2Voxel

/-- Three-component vector of exact rationals, the model of the C++ `Vec3`. -/
structure V3 where
  x : ℚ
  y : ℚ
  z : ℚ
deriving DecidableEq

/-- Two-component vector of exact rationals, the model of the C++ `Vec2`
(texture coordinates). -/
structure V2 where
  u : ℚ
  v : ℚ
deriving DecidableEq

/-- Component access `v[axis]` for `axis` in `[0, 3)`. -/
def V3.nth (a : V3) : Fin 3 → ℚ
  | 0 => a.x
  | 1 => a.y
  | 2 => a.z

instance : Add V3 := ⟨fun a b => ⟨a.x + b.x, a.y + b.y, a.z + b.z⟩⟩

instance : Sub V3 := ⟨fun a b => ⟨a.x - b.x, a.y - b.y, a.z - b.z⟩⟩

instance : Add V2 := ⟨fun a b => ⟨a.u + b.u, a.v + b.v⟩⟩

instance : Sub V2 := ⟨fun a b => ⟨a.u - b.u, a.v - b.v⟩⟩

/-- Componentwise absolute value, the model of the C++ `abs` on `Vec3`. -/
def V3.vabs (a : V3) : V3 := ⟨|a.x|, |a.y|, |a.z|⟩

/-- Dot product of rational vectors. -/
def V3.dot (a b : V3) : ℚ := a.x * b.x + a.y * b.y + a.z * b.z

/-- Cross product of rational vectors. -/
def V3.cross (a b : V3) : V3 :=
  ⟨a.y * b.z - a.z * b.y, a.z * b.x - a.x * b.z, a.x * b.y - a.y * b.x⟩

/-- Squared euclidean norm, exact in the rationals. -/
def V3.normSq (a : V3) : ℚ := a.x * a.x + a.y * a.y + a.z * a.z

/-- Linear interpolation `mix(a, b, t) = (1 - t) a + t b`, the model of the
C++ `mix` on scalars. -/
def qmix (a b t : ℚ) : ℚ := (1 - t) * a + t * b

/-- Linear interpolation on `Vec3`. -/
def V3.vmix (a b : V3) (t : ℚ) : V3 := ⟨qmix a.x b.x t, qmix a.y b.y t, qmix a.z b.z t⟩

/-- Linear interpolation on `Vec2`. -/
def V2.tmix (a b : V2) (t : ℚ) : V2 := ⟨qmix a.u b.u t, qmix a.v b.v t⟩

/-- A triangle with per-vertex texture coordinates.
Modelled from the spec: `TexturedTriangle` lives in the missing
`triangle.hpp`; §3 of the spec describes it as three vertices in voxel space
plus three UVs. -/
structure TexturedTriangle where
  v0 : V3
  v1 : V3
  v2 : V3
  t0 : V2
  t1 : V2
  t2 : V2
deriving DecidableEq

/-- Vertex access `t.vertex(i)`. -/
def TexturedTriangle.vertex (t : TexturedTriangle) : Fin 3 → V3
  | 0 => t.v0
  | 1 => t.v1
  | 2 => t.v2

/-- Texture access `t.texture(i)`. -/
def TexturedTriangle.texture (t : TexturedTriangle) : Fin 3 → V2
  | 0 => t.t0
  | 1 => t.t1
  | 2 => t.t2

/-- The (unnormalised) normal of the triangle, `cross(v1 - v0, v2 - v0)`.
Modelled from the spec: `Triangle::normal()` is declared in the missing
`triangle.hpp`. -/
def TexturedTriangle.normal (t : TexturedTriangle) : V3 :=
  V3.cross (t.v1 - t.v0) (t.v2 - t.v0)

/-- Centroid of the three texture coordinates.  Modelled from the spec:
`textureCenter()` is `centroid_UV(f)` of §4.4. -/
def TexturedTriangle.textureCenter (t : TexturedTriangle) : V2 :=
  ⟨(t.t0.u + t.t1.u + t.t2.u) / 3, (t.t0.v + t.t1.v + t.t2.v) / 3⟩

/-- The constant `EPSILON = 2^-16` of `voxelization.cpp`. -/
def EPSILON : ℚ := 1 / 2 ^ 16

/-- The comparison `isZero(x)`, i.e. `|x| < EPSILON`. -/
def isZeroQ (x : ℚ) : Prop := |x| < EPSILON

instance (x : ℚ) : Decidable (isZeroQ x) := by unfold isZeroQ; infer_instance

/-- The comparison `eq(x, plane)`, i.e. `isZero(x - plane)`. -/
def eqPlane (x : ℚ) (plane : ℤ) : Prop := isZeroQ (x - plane)

instance (x : ℚ) (plane : ℤ) : Decidable (eqPlane x plane) := by
  unfold eqPlane; infer_instance

/-- The `intersect_ray_axisPlane` helper: with `d = -dir[axis]` the parameter
is `0` if `isZero(d)` and `(org[axis] - plane) / d` otherwise. -/
def intersect_ray_axisPlane (org dir : V3) (axis : Fin 3) (plane : ℤ) : ℚ :=
  let d : ℚ := -(dir.nth axis)
  if isZeroQ d then 0 else (org.nth axis - (plane : ℚ)) / d

/-- The `DiscardMode` enumeration of the splitter. -/
inductive DiscardMode where
  | NONE
  | DISCARD_LO
  | DISCARD_HI
deriving DecidableEq

/-- Indicator used to model the C++ `bool` arithmetic in `planarSum`/`loSum`. -/
def b2n (p : Prop) [Decidable p] : ℕ := if p then 1 else 0

/-- Successor on `Fin 3`, modelling the C++ `(i + 1) % 3` index arithmetic. -/
def nxt : Fin 3 → Fin 3
  | 0 => 1
  | 1 => 2
  | 2 => 0

/-- The two-triangle emission of the `planarSum == 1` splitting case of
`splitTriangle` (the splitting plane passes through vertex `pIdx`).  Events
are `(side, triangle)` pairs in push order, `side = true` meaning the `lo`
sink. -/
def planarSplitEvents (axis : Fin 3) (plane : ℤ) (t : TexturedTriangle) (pIdx : Fin 3) :
    List (Bool × TexturedTriangle) :=
  let n0 := nxt pIdx
  let n1 := nxt (nxt pIdx)
  let planarVertex := t.vertex pIdx
  let planarTexture := t.texture pIdx
  let nonPlanarEdge := t.vertex n1 - t.vertex n0
  let s := intersect_ray_axisPlane (t.vertex n0) nonPlanarEdge axis plane
  let geoIsect := V3.vmix (t.vertex n0) (t.vertex n1) s
  let texIsect := V2.tmix (t.texture n0) (t.texture n1) s
  let tri0 : TexturedTriangle :=
    ⟨planarVertex, t.vertex n0, geoIsect, planarTexture, t.texture n0, texIsect⟩
  let tri1 : TexturedTriangle :=
    ⟨planarVertex, geoIsect, t.vertex n1, planarTexture, texIsect, t.texture n1⟩
  let isFirstTriangleLo : Bool := decide ((t.vertex n0).nth axis ≤ (plane : ℚ))
  [(isFirstTriangleLo, tri0), (!isFirstTriangleLo, tri1)]

/-- The three-triangle emission of the regular splitting case of
`splitTriangle` (no vertex planar, vertex `iso` isolated on one side).
Events are `(side, triangle)` pairs in push order. -/
def regularSplitEvents (axis : Fin 3) (plane : ℤ) (t : TexturedTriangle)
    (iso : Fin 3) (isIsolatedLo : Bool) : List (Bool × TexturedTriangle) :=
  let o0 := nxt iso
  let o1 := nxt (nxt iso)
  let isolatedVertex := t.vertex iso
  let isolatedTexture := t.texture iso
  let s0 := intersect_ray_axisPlane isolatedVertex (t.vertex o0 - isolatedVertex) axis plane
  let s1 := intersect_ray_axisPlane isolatedVertex (t.vertex o1 - isolatedVertex) axis plane
  let g0 := V3.vmix isolatedVertex (t.vertex o0) s0
  let g1 := V3.vmix isolatedVertex (t.vertex o1) s1
  let x0 := V2.tmix isolatedTexture (t.texture o0) s0
  let x1 := V2.tmix isolatedTexture (t.texture o1) s1
  let isolatedTriangle : TexturedTriangle :=
    ⟨isolatedVertex, g0, g1, isolatedTexture, x0, x1⟩
  let otherTriangle0 : TexturedTriangle :=
    ⟨g0, t.vertex o0, t.vertex o1, x0, t.texture o0, t.texture o1⟩
  let otherTriangle1 : TexturedTriangle :=
    ⟨g0, g1, t.vertex o1, x0, x1, t.texture o1⟩
  [(isIsolatedLo, isolatedTriangle),
   (!isIsolatedLo, otherTriangle0),
   (!isIsolatedLo, otherTriangle1)]

/-- The vertex-planarity test `planarVertices[i]` of `splitTriangle`. -/
def isPlanarVertex (t : TexturedTriangle) (axis : Fin 3) (plane : ℤ) (i : Fin 3) : Prop :=
  eqPlane ((t.vertex i).nth axis) plane

instance (t : TexturedTriangle) (axis : Fin 3) (plane : ℤ) (i : Fin 3) :
    Decidable (isPlanarVertex t axis plane i) := by
  unfold isPlanarVertex; infer_instance

/-- The vertex-side test `loVertices[i]` of `splitTriangle`. -/
def isLoVertex (t : TexturedTriangle) (axis : Fin 3) (plane : ℤ) (i : Fin 3) : Prop :=
  (t.vertex i).nth axis ≤ (plane : ℚ)

instance (t : TexturedTriangle) (axis : Fin 3) (plane : ℤ) (i : Fin 3) :
    Decidable (isLoVertex t axis plane i) := by
  unfold isLoVertex; infer_instance

/-- The `planarSum` of `splitTriangle`. -/
def planarCount (t : TexturedTriangle) (axis : Fin 3) (plane : ℤ) : ℕ :=
  b2n (isPlanarVertex t axis plane 0) + b2n (isPlanarVertex t axis plane 1) +
    b2n (isPlanarVertex t axis plane 2)

/-- The `loSum` of `splitTriangle`. -/
def loCount (t : TexturedTriangle) (axis : Fin 3) (plane : ℤ) : ℕ :=
  b2n (isLoVertex t axis plane 0) + b2n (isLoVertex t axis plane 1) +
    b2n (isLoVertex t axis plane 2)

/-- All `(side, triangle)` push events of one `splitTriangle` call, in push
order; `side = true` stands for a push towards the `lo` sink.  The
`DiscardMode` of the C++ template only filters these events at the push
sites, so it is applied separately (`splitTriangle`, `splitKept`). -/
def splitEvents (axis : Fin 3) (plane : ℤ) (t : TexturedTriangle) :
    List (Bool × TexturedTriangle) :=
  if planarCount t axis plane = 3 then [(true, t)]
  else
    if loCount t axis plane = 0 then [(false, t)]
    else if loCount t axis plane = 3 then [(true, t)]
    else if planarCount t axis plane = 2 then
      let nonPlanarIndex : Fin 3 :=
        if ¬ isPlanarVertex t axis plane 0 then 0
        else if ¬ isPlanarVertex t axis plane 1 then 1 else 2
      [(decide ((t.vertex nonPlanarIndex).nth axis ≤ (plane : ℚ)), t)]
    else if planarCount t axis plane = 1 then
      let planarIndex : Fin 3 :=
        if isPlanarVertex t axis plane 0 then 0
        else if isPlanarVertex t axis plane 1 then 1 else 2
      let nonPlanarLoSum := b2n (isLoVertex t axis plane (nxt planarIndex)) +
        b2n (isLoVertex t axis plane (nxt (nxt planarIndex)))
      if nonPlanarLoSum ≠ 1 then [(decide (nonPlanarLoSum = 2), t)]
      else planarSplitEvents axis plane t planarIndex
    else
      let isIsolatedLo := loCount t axis plane = 1
      let iso : Fin 3 :=
        if isIsolatedLo then
          (if isLoVertex t axis plane 0 then 0
           else if isLoVertex t axis plane 1 then 1 else 2)
        else
          (if ¬ isLoVertex t axis plane 0 then 0
           else if ¬ isLoVertex t axis plane 1 then 1 else 2)
      regularSplitEvents axis plane t iso (decide isIsolatedLo)

/-- The `splitTriangle` routine: the lists of triangles pushed into the `lo`
and `hi` output sinks, for a given `DiscardMode`.  With `DiscardMode.NONE`
both sinks receive their events; `DISCARD_LO` suppresses the `lo` pushes and
`DISCARD_HI` the `hi` pushes, exactly as `pushLoIfTrueElseHi` does. -/
def splitTriangle (mode : DiscardMode) (axis : Fin 3) (plane : ℤ)
    (t : TexturedTriangle) : List TexturedTriangle × List TexturedTriangle :=
  let ev := splitEvents axis plane t
  match mode with
  | .NONE => (ev.filterMap fun e => if e.1 then some e.2 else none,
              ev.filterMap fun e => if e.1 then none else some e.2)
  | .DISCARD_LO => ([], ev.filterMap fun e => if e.1 then none else some e.2)
  | .DISCARD_HI => (ev.filterMap fun e => if e.1 then some e.2 else none, [])

/-- The contents that one `splitTriangle` call appends to a single buffer
passed as both sinks (as `voxelizeVoxel` does), in push order.  For the two
discard modes this is exactly the surviving side. -/
def splitKept (mode : DiscardMode) (axis : Fin 3) (plane : ℤ)
    (t : TexturedTriangle) : List TexturedTriangle :=
  (splitEvents axis plane t).filterMap fun e =>
    match mode with
    | .NONE => some e.2
    | .DISCARD_LO => if e.1 then none else some e.2
    | .DISCARD_HI => if e.1 then some e.2 else none

/-- Euclidean norm of a rational vector, in the reals. -/
noncomputable def V3.rnorm (a : V3) : ℝ := Real.sqrt (a.normSq : ℚ)

/-- Triangle area, `length(normal) / 2`.  Modelled from the spec:
`TexturedTriangle::area()` is declared in the missing `triangle.hpp`; §8 and
the glossary fix it as the euclidean area of the triangle in voxel space. -/
noncomputable def TexturedTriangle.area (t : TexturedTriangle) : ℝ :=
  t.normal.rnorm / 2

/-- A real 3-vector, used for normalised directions. -/
structure R3 where
  x : ℝ
  y : ℝ
  z : ℝ

/-- Dot product of real vectors. -/
noncomputable def R3.dot (a b : R3) : ℝ := a.x * b.x + a.y * b.y + a.z * b.z

/-- Coercion of a rational vector into the reals. -/
def V3.toR (a : V3) : R3 := ⟨(a.x : ℝ), (a.y : ℝ), (a.z : ℝ)⟩

/-- The `normalize` of the missing `util.hpp`, modelled from the spec as
division by the euclidean length (`v / |v|`). -/
noncomputable def V3.normalize (a : V3) : R3 :=
  ⟨(a.x : ℝ) / a.rnorm, (a.y : ℝ) / a.rnorm, (a.z : ℝ) / a.rnorm⟩

/-- An RGB color value.  Color arithmetic of the missing headers is modelled
over the reals. -/
structure RGB where
  r : ℝ
  g : ℝ
  b : ℝ

/-- The all-zero color. -/
def RGB.zero : RGB := ⟨0, 0, 0⟩

/-- A weighted color sample.  Modelled from the spec: `WeightedColor` is a
`(weight, value)` pair with identity `(0, 0)` (§3). -/
structure WeightedColor where
  weight : ℝ
  value : RGB

/-- The zero-initialised `WeightedColor{}`, the identity element `(0, 0)`. -/
def WeightedColor.zero : WeightedColor := ⟨0, RGB.zero⟩

/-- The BLEND combination of two weighted colors.  Modelled from the spec
(§4.4): `w' = w1 + w2`, `v' = (w1 v1 + w2 v2) / w'`. -/
noncomputable def wcMix (a b : WeightedColor) : WeightedColor :=
  ⟨a.weight + b.weight,
   ⟨(a.weight * a.value.r + b.weight * b.value.r) / (a.weight + b.weight),
    (a.weight * a.value.g + b.weight * b.value.g) / (a.weight + b.weight),
    (a.weight * a.value.b + b.weight * b.value.b) / (a.weight + b.weight)⟩⟩

/-- The color strategy enumeration of `voxelization.hpp`. -/
inductive ColorStrategy where
  | MAX
  | BLEND
deriving DecidableEq

/-- Combination of an incumbent and a new sample under a strategy.  Modelled
from the spec (§4.5): BLEND is the weighted average; MAX keeps the
contribution with the strictly greater weight, ties retaining the
incumbent. -/
noncomputable def combineColor (strategy : ColorStrategy) (incumbent fresh : WeightedColor) :
    WeightedColor :=
  match strategy with
  | .BLEND => wcMix incumbent fresh
  | .MAX => if fresh.weight > incumbent.weight then fresh else incumbent

/-- An integer voxel position, the model of `Vec3u`. -/
structure P3 where
  x : ℤ
  y : ℤ
  z : ℤ
deriving DecidableEq

/-- Component access `pos[axis]`. -/
def P3.nth (p : P3) : Fin 3 → ℤ
  | 0 => p.x
  | 1 => p.y
  | 2 => p.z

/-- The output voxel map, a mapping from voxel position to weighted color
(`std::map<Vec3u, WeightedColor>`), modelled as a partial function. -/
def VoxelMap := P3 → Option WeightedColor

/-- The empty voxel map. -/
def VoxelMap.empty : VoxelMap := fun _ => none

/-- The `insertColor<STRATEGY>` of the missing old `voxelization.hpp`,
modelled from the spec (§4.5, §4.6): a write into an empty cell stores the
sample, a subsequent write combines under the strategy with the stored value
as the incumbent. -/
noncomputable def insertColor (strategy : ColorStrategy) (map : VoxelMap) (pos : P3)
    (color : WeightedColor) : VoxelMap :=
  fun q =>
    if q = pos then
      match map pos with
      | none => some color
      | some incumbent => some (combineColor strategy incumbent color)
    else map q

/-- A triangle together with its shading source.  Modelled from the spec
(§3): the three `VisualTriangle` variants (materialless, untextured,
textured) only differ in how `colorAt(uv)` is computed, so the shading
source is abstracted into that function. -/
structure VisualTriangle where
  tri : TexturedTriangle
  colorAt : V2 → RGB

/-- One clipping pass of `voxelizeVoxel`: every triangle of the buffer is
streamed through `splitTriangle` with both sinks aliased to the output
buffer. -/
def clipPass (mode : DiscardMode) (axis : Fin 3) (plane : ℤ)
    (buffer : List TexturedTriangle) : List TexturedTriangle :=
  buffer.flatMap fun t => splitKept mode axis plane t

/-- The six `(hi, axis)` clipping steps of `voxelizeVoxel`, in loop order:
`hi` ranges over `0, 1` outermost, `axis` over `0, 1, 2`. -/
def clipSteps : List (Bool × Fin 3) :=
  [(false, 0), (false, 1), (false, 2), (true, 0), (true, 1), (true, 2)]

/-- The clipping loop of `voxelizeVoxel` with an explicit choice of discard
mode per side.  Returns `none` as soon as the working buffer becomes empty
after a pass (the early `return WeightedColor(0, 0)` of the source). -/
def clipLoopWith (modeOf : Bool → DiscardMode) (pos : P3) :
    List (Bool × Fin 3) → List TexturedTriangle → Option (List TexturedTriangle)
  | [], buffer => some buffer
  | (hi, axis) :: rest, buffer =>
    let plane : ℤ := pos.nth axis + (if hi then 1 else 0)
    let buffer' := clipPass (modeOf hi) axis plane buffer
    if buffer' = [] then none else clipLoopWith modeOf pos rest buffer'

/-- The discard-mode selection of `voxelizeVoxel` as written in the source:
`hi ? splitTriangle<DiscardMode::DISCARD_HI> : splitTriangle<DiscardMode::DISCARD_LO>`. -/
def sourceModeOf (hi : Bool) : DiscardMode :=
  if hi then .DISCARD_HI else .DISCARD_LO

/-- The discard-mode selection asserted by the specification's parenthesis
(§4.4): DiscardLo when side = high, DiscardHi when side = low. -/
def claimModeOf (hi : Bool) : DiscardMode :=
  if hi then .DISCARD_LO else .DISCARD_HI

/-- The clipping loop of `voxelizeVoxel` as in the source. -/
def clipLoop (pos : P3) (buffer : List TexturedTriangle) :
    Option (List TexturedTriangle) :=
  clipLoopWith sourceModeOf pos clipSteps buffer

/-- The fragments that survive the six-plane clip of the triangle buffer
against the unit cube at `pos` (empty if the clip ran empty). -/
def survivingFragments (pos : P3) (buffer : List TexturedTriangle) :
    List TexturedTriangle :=
  (clipLoop pos buffer).getD []

/-- The color-accumulation loop at the end of `voxelizeVoxel`: each fragment
contributes the color sampled at its UV centroid, with weight
`inputTriangle.area()` (the area of the whole input triangle, as the source
has it), folded with the BLEND `mix` starting from `WeightedColor{}`. -/
noncomputable def accumulateColor (inputTriangle : VisualTriangle)
    (fragments : List TexturedTriangle) : WeightedColor :=
  fragments.foldl
    (fun result t =>
      wcMix result ⟨inputTriangle.tri.area, inputTriangle.colorAt t.textureCenter⟩)
    WeightedColor.zero

/-- `voxelizeVoxel`, generic in the per-side discard-mode selection. -/
noncomputable def voxelizeVoxelWith (modeOf : Bool → DiscardMode)
    (inputTriangle : VisualTriangle) (pos : P3)
    (preSplitBuffer : List TexturedTriangle) : WeightedColor :=
  match clipLoopWith modeOf pos clipSteps preSplitBuffer with
  | none => WeightedColor.zero
  | some fragments => accumulateColor inputTriangle fragments

/-- The `voxelizeVoxel` of `voxelization.cpp`: six plane clips with the
source's discard-mode selection, then color accumulation. -/
noncomputable def voxelizeVoxel (inputTriangle : VisualTriangle) (pos : P3)
    (preSplitBuffer : List TexturedTriangle) : WeightedColor :=
  match clipLoop pos preSplitBuffer with
  | none => WeightedColor.zero
  | some fragments => accumulateColor inputTriangle fragments

/-- Smallest vertex coordinate of a triangle on one axis. -/
def TexturedTriangle.minCoord (t : TexturedTriangle) (a : Fin 3) : ℚ :=
  min ((t.vertex 0).nth a) (min ((t.vertex 1).nth a) ((t.vertex 2).nth a))

/-- Largest vertex coordinate of a triangle on one axis. -/
def TexturedTriangle.maxCoord (t : TexturedTriangle) (a : Fin 3) : ℚ :=
  max ((t.vertex 0).nth a) (max ((t.vertex 1).nth a) ((t.vertex 2).nth a))

/-- Extent (width of the real bounding box) of a triangle on one axis. -/
def TexturedTriangle.extentQ (t : TexturedTriangle) (a : Fin 3) : ℚ :=
  t.maxCoord a - t.minCoord a

/-- Largest extent over the three axes. -/
def TexturedTriangle.maxExtentQ (t : TexturedTriangle) : ℚ :=
  max (t.extentQ 0) (max (t.extentQ 1) (t.extentQ 2))

/-- Lower voxel bound of a triangle.  Modelled from the spec:
`voxelMin()` is declared in the missing `triangle.hpp`; it is the floor of
the componentwise minimum of the vertices (the spec's integer bounding
box, §4.3, whose cells `voxelizeSubTriangle` iterates, §4.6). -/
def TexturedTriangle.voxelMin (t : TexturedTriangle) : P3 :=
  ⟨⌊t.minCoord 0⌋, ⌊t.minCoord 1⌋, ⌊t.minCoord 2⌋⟩

/-- Upper (exclusive) voxel bound of a triangle.  Modelled from the spec:
`voxelMax()` is the ceiling of the componentwise maximum of the vertices. -/
def TexturedTriangle.voxelMax (t : TexturedTriangle) : P3 :=
  ⟨⌈t.maxCoord 0⌉, ⌈t.maxCoord 1⌉, ⌈t.maxCoord 2⌉⟩

/-- The `size = vmax - vmin` of the subdivider, per axis. -/
def TexturedTriangle.voxelSize (t : TexturedTriangle) (a : Fin 3) : ℕ :=
  (t.voxelMax.nth a - t.voxelMin.nth a).toNat

/-- The integer bounding-box volume `size[0] * size[1] * size[2]` computed by
`subdivideLargeVolumeTriangles`. -/
def TexturedTriangle.intVolume (t : TexturedTriangle) : ℕ :=
  t.voxelSize 0 * t.voxelSize 1 * t.voxelSize 2

/-- Midpoint of two vertices. -/
def V3.mid (a b : V3) : V3 := ⟨(a.x + b.x) / 2, (a.y + b.y) / 2, (a.z + b.z) / 2⟩

/-- Midpoint of two texture coordinates. -/
def V2.mid (a b : V2) : V2 := ⟨(a.u + b.u) / 2, (a.v + b.v) / 2⟩

/-- Midpoint subdivision into four sub-triangles.  Modelled from the spec
(§4.3): each edge is split at its midpoint with UVs interpolated
correspondingly; the first quarter (`subTriangles[0]`, the one replacing
the worked-on triangle) is the center piece, the other three are the corner
triangles. -/
def TexturedTriangle.subdivide4 (t : TexturedTriangle) :
    TexturedTriangle × TexturedTriangle × TexturedTriangle × TexturedTriangle :=
  let m01 := V3.mid t.v0 t.v1
  let m12 := V3.mid t.v1 t.v2
  let m02 := V3.mid t.v0 t.v2
  let u01 := V2.mid t.t0 t.t1
  let u12 := V2.mid t.t1 t.t2
  let u02 := V2.mid t.t0 t.t2
  (⟨m01, m12, m02, u01, u12, u02⟩,
   ⟨t.v0, m01, m02, t.t0, u01, u02⟩,
   ⟨m01, t.v1, m12, u01, t.t1, u12⟩,
   ⟨m02, m12, t.v2, u02, u12, t.t2⟩)

/-- The list of the four quarters of `subdivide4`, center first. -/
def TexturedTriangle.quarters (t : TexturedTriangle) : List TexturedTriangle :=
  [t.subdivide4.1, t.subdivide4.2.1, t.subdivide4.2.2.1, t.subdivide4.2.2.2]

/-- The decimal constant `sqrtThird` of `subdivideLargeVolumeTriangles`,
taken verbatim from the source (a literal, not an exact square root). -/
def sqrtThird : ℚ :=
  0.5773502691896257645091487805019574556476017512701268760186023264

/-- The constant vector `diagonal3 = (sqrtThird, sqrtThird, sqrtThird)`. -/
def diagonal3 : V3 := ⟨sqrtThird, sqrtThird, sqrtThird⟩

/-- The `diagonality` of `subdivideLargeVolumeTriangles`:
`dot(normalize(abs(normal)), diagonal3)`. -/
noncomputable def diagonality (t : TexturedTriangle) : ℝ :=
  R3.dot (V3.normalize t.normal.vabs) diagonal3.toR

/-- The `diagonality01` of `subdivideLargeVolumeTriangles`:
`(diagonality - sqrtThird) / (1 - sqrtThird)`. -/
noncomputable def diagonality01 (t : TexturedTriangle) : ℝ :=
  (diagonality t - (sqrtThird : ℚ)) / (1 - (sqrtThird : ℚ))

/-- Scalar fact: the maximum of `a` and the two averages of `a` with `b`, `c`
is the average of `a` with the three-way maximum. -/
lemma qmax_halves (a b c : ℚ) :
    max a (max ((a + b) / 2) ((a + c) / 2)) = (a + max a (max b c)) / 2 := by
  rw [max_div_div_right (by norm_num : (0:ℚ) ≤ 2), max_add_add_left]
  rw [show max a ((a + max b c) / 2) = max ((a + a) / 2) ((a + max b c) / 2) by
    rw [show (a + a) / 2 = a by ring]]
  rw [max_div_div_right (by norm_num : (0:ℚ) ≤ 2), max_add_add_left]

/-- Scalar fact: the minimum of `a` and the two averages of `a` with `b`, `c`
is the average of `a` with the three-way minimum. -/
lemma qmin_halves (a b c : ℚ) :
    min a (min ((a + b) / 2) ((a + c) / 2)) = (a + min a (min b c)) / 2 := by
  rw [min_div_div_right (by norm_num : (0:ℚ) ≤ 2), min_add_add_left]
  rw [show min a ((a + min b c) / 2) = min ((a + a) / 2) ((a + min b c) / 2) by
    rw [show (a + a) / 2 = a by ring]]
  rw [min_div_div_right (by norm_num : (0:ℚ) ≤ 2), min_add_add_left]

/-- Scalar fact: the maximum of the three pairwise averages. -/
lemma qmax_mids (a b c : ℚ) :
    max ((a + b) / 2) (max ((b + c) / 2) ((a + c) / 2)) =
      (a + b + c - min a (min b c)) / 2 := by
  rw [show (a + b) / 2 = (a + b + c - c) / 2 by ring,
      show (b + c) / 2 = (a + b + c - a) / 2 by ring,
      show (a + c) / 2 = (a + b + c - b) / 2 by ring,
      max_div_div_right (by norm_num : (0:ℚ) ≤ 2),
      max_div_div_right (by norm_num : (0:ℚ) ≤ 2),
      max_sub_sub_left, max_sub_sub_left]
  rw [show min c (min a b) = min a (min b c) by
    rw [min_comm c (min a b), min_assoc]]

/-- Scalar fact: the minimum of the three pairwise averages. -/
lemma qmin_mids (a b c : ℚ) :
    min ((a + b) / 2) (min ((b + c) / 2) ((a + c) / 2)) =
      (a + b + c - max a (max b c)) / 2 := by
  rw [show (a + b) / 2 = (a + b + c - c) / 2 by ring,
      show (b + c) / 2 = (a + b + c - a) / 2 by ring,
      show (a + c) / 2 = (a + b + c - b) / 2 by ring,
      min_div_div_right (by norm_num : (0:ℚ) ≤ 2),
      min_div_div_right (by norm_num : (0:ℚ) ≤ 2),
      min_sub_sub_left, min_sub_sub_left]
  rw [show max c (max a b) = max a (max b c) by
    rw [max_comm c (max a b), max_assoc]]

lemma V3.mid_nth (a b : V3) (i : Fin 3) :
    (V3.mid a b).nth i = (a.nth i + b.nth i) / 2 := by
  fin_cases i <;> simp [V3.mid, V3.nth]

lemma extentQ_center (t : TexturedTriangle) (a : Fin 3) :
    (t.subdivide4.1).extentQ a = t.extentQ a / 2 := by
  simp only [TexturedTriangle.subdivide4, TexturedTriangle.extentQ,
    TexturedTriangle.maxCoord, TexturedTriangle.minCoord,
    TexturedTriangle.vertex, V3.mid_nth]
  generalize V3.nth t.v0 a = A
  generalize V3.nth t.v1 a = B
  generalize V3.nth t.v2 a = C
  rw [qmax_mids A B C, qmin_mids A B C]
  ring

lemma extentQ_corner0 (t : TexturedTriangle) (a : Fin 3) :
    (t.subdivide4.2.1).extentQ a = t.extentQ a / 2 := by
  simp only [TexturedTriangle.subdivide4, TexturedTriangle.extentQ,
    TexturedTriangle.maxCoord, TexturedTriangle.minCoord,
    TexturedTriangle.vertex, V3.mid_nth]
  generalize V3.nth t.v0 a = A
  generalize V3.nth t.v1 a = B
  generalize V3.nth t.v2 a = C
  rw [qmax_halves A B C, qmin_halves A B C]
  ring

lemma extentQ_corner1 (t : TexturedTriangle) (a : Fin 3) :
    (t.subdivide4.2.2.1).extentQ a = t.extentQ a / 2 := by
  simp only [TexturedTriangle.subdivide4, TexturedTriangle.extentQ,
    TexturedTriangle.maxCoord, TexturedTriangle.minCoord,
    TexturedTriangle.vertex, V3.mid_nth]
  generalize V3.nth t.v0 a = A
  generalize V3.nth t.v1 a = B
  generalize V3.nth t.v2 a = C
  rw [max_left_comm, min_left_comm, add_comm A B,
    qmax_halves B A C, qmin_halves B A C, max_left_comm, min_left_comm]
  ring

lemma extentQ_corner2 (t : TexturedTriangle) (a : Fin 3) :
    (t.subdivide4.2.2.2).extentQ a = t.extentQ a / 2 := by
  simp only [TexturedTriangle.subdivide4, TexturedTriangle.extentQ,
    TexturedTriangle.maxCoord, TexturedTriangle.minCoord,
    TexturedTriangle.vertex, V3.mid_nth]
  generalize V3.nth t.v0 a = A
  generalize V3.nth t.v1 a = B
  generalize V3.nth t.v2 a = C
  rw [max_comm ((B + C) / 2) C, max_left_comm, min_comm ((B + C) / 2) C,
    min_left_comm, add_comm A C, add_comm B C,
    qmax_halves C A B, qmin_halves C A B,
    show max C (max A B) = max A (max B C) by
      rw [max_left_comm, max_comm C B],
    show min C (min A B) = min A (min B C) by
      rw [min_left_comm, min_comm C B]]
  ring

/-- Every quarter of the midpoint subdivision has exactly half the parent's
extent, on every axis. -/
lemma extentQ_quarter (t : TexturedTriangle) (c : TexturedTriangle)
    (hc : c ∈ t.quarters) (a : Fin 3) : c.extentQ a = t.extentQ a / 2 := by
  simp only [TexturedTriangle.quarters, List.mem_cons,
    List.not_mem_nil, or_false] at hc
  rcases hc with hc | hc | hc | hc <;> subst hc
  · exact extentQ_center t a
  · exact extentQ_corner0 t a
  · exact extentQ_corner1 t a
  · exact extentQ_corner2 t a

/-- Every quarter has exactly half the parent's largest extent. -/
lemma maxExtentQ_quarter (t : TexturedTriangle) (c : TexturedTriangle)
    (hc : c ∈ t.quarters) : c.maxExtentQ = t.maxExtentQ / 2 := by
  unfold TexturedTriangle.maxExtentQ
  rw [extentQ_quarter t c hc 0, extentQ_quarter t c hc 1, extentQ_quarter t c hc 2,
    max_div_div_right (by norm_num : (0:ℚ) ≤ 2),
    max_div_div_right (by norm_num : (0:ℚ) ≤ 2)]

lemma voxelMin_nth (t : TexturedTriangle) (a : Fin 3) :
    t.voxelMin.nth a = ⌊t.minCoord a⌋ := by
  fin_cases a <;> rfl

lemma voxelMax_nth (t : TexturedTriangle) (a : Fin 3) :
    t.voxelMax.nth a = ⌈t.maxCoord a⌉ := by
  fin_cases a <;> rfl

/-- A triangle of integer bounding-box volume at least 512 has some integer
size at least 8 (otherwise the volume would be at most `7^3 = 343`). -/
lemma eight_le_size_of_volume (t : TexturedTriangle) (h : 512 ≤ t.intVolume) :
    ∃ a : Fin 3, 8 ≤ t.voxelSize a := by
  by_contra hc
  push_neg at hc
  have h0 := hc 0
  have h1 := hc 1
  have h2 := hc 2
  have : t.intVolume ≤ 7 * 7 * 7 := by
    unfold TexturedTriangle.intVolume
    exact Nat.mul_le_mul (Nat.mul_le_mul (by omega) (by omega)) (by omega)
  omega

/-- An integer size of at least 8 forces a real extent exceeding 6. -/
lemma six_lt_extentQ_of_size (t : TexturedTriangle) (a : Fin 3)
    (h : 8 ≤ t.voxelSize a) : 6 < t.extentQ a := by
  unfold TexturedTriangle.voxelSize at h
  rw [voxelMin_nth, voxelMax_nth] at h
  have h8 : (8 : ℤ) ≤ ⌈t.maxCoord a⌉ - ⌊t.minCoord a⌋ := by omega
  have hM : (⌈t.maxCoord a⌉ : ℚ) < t.maxCoord a + 1 := Int.ceil_lt_add_one _
  have hm : t.minCoord a - 1 < (⌊t.minCoord a⌋ : ℚ) := Int.sub_one_lt_floor _
  have h8q : (8 : ℚ) ≤ (⌈t.maxCoord a⌉ : ℚ) - (⌊t.minCoord a⌋ : ℚ) := by
    exact_mod_cast h8
  unfold TexturedTriangle.extentQ
  linarith

/-- Volume at least 512 forces a largest extent exceeding 6. -/
lemma six_lt_maxExtentQ (t : TexturedTriangle) (h : 512 ≤ t.intVolume) :
    6 < t.maxExtentQ := by
  obtain ⟨a, ha⟩ := eight_le_size_of_volume t h
  have := six_lt_extentQ_of_size t a ha
  unfold TexturedTriangle.maxExtentQ
  fin_cases a
  · exact lt_max_of_lt_left this
  · exact lt_max_of_lt_right (lt_max_of_lt_left this)
  · exact lt_max_of_lt_right (lt_max_of_lt_right this)

/-- Repeated halving brings the largest extent below 6. -/
lemma exists_halving (t : TexturedTriangle) :
    ∃ k : ℕ, t.maxExtentQ / 2 ^ k < 6 := by
  rcases le_or_lt t.maxExtentQ 0 with h | h
  · exact ⟨0, by rw [pow_zero, div_one]; linarith⟩
  · obtain ⟨n, hn⟩ := pow_unbounded_of_one_lt (t.maxExtentQ / 6)
      (by norm_num : (1 : ℚ) < 2)
    refine ⟨n, ?_⟩
    rw [div_lt_iff (by positivity)]
    rw [div_lt_iff (by norm_num : (0:ℚ) < 6)] at hn
    linarith

/-- The number of halvings needed to bring the largest extent below 6; the
termination measure of the subdivision work loop. -/
noncomputable def muFuel (t : TexturedTriangle) : ℕ :=
  sInf {k : ℕ | t.maxExtentQ / 2 ^ k < 6}

lemma muFuel_spec (t : TexturedTriangle) : t.maxExtentQ / 2 ^ muFuel t < 6 :=
  Nat.sInf_mem (exists_halving t)

lemma muFuel_le (t : TexturedTriangle) (k : ℕ) (h : t.maxExtentQ / 2 ^ k < 6) :
    muFuel t ≤ k :=
  Nat.sInf_le h

lemma muFuel_quarter_lt (t : TexturedTriangle) (c : TexturedTriangle)
    (hc : c ∈ t.quarters) (h6 : 6 < t.maxExtentQ) : muFuel c < muFuel t := by
  have hpos : muFuel t ≠ 0 := by
    intro h0
    have := muFuel_spec t
    rw [h0, pow_zero, div_one] at this
    linarith
  have hgoal : c.maxExtentQ / 2 ^ (muFuel t - 1) < 6 := by
    rw [maxExtentQ_quarter t c hc, div_div, ← pow_succ']
    rw [show muFuel t - 1 + 1 = muFuel t by omega]
    exact muFuel_spec t
  have := muFuel_le c _ hgoal
  omega

/-- One bounded run of the work loop of `subdivideLargeVolumeTriangles`.
The worked vector is `done ++ todo`, the index `i` standing at the head of
`todo`.  A triangle of integer bounding-box volume below 512 is passed over;
otherwise it is replaced in place by the first quarter of its midpoint
subdivision, the other three quarters being appended at the end of the
vector.  The fuel argument bounds the number of loop iterations; `none`
means the bound was hit (`subLoopFuel_total` shows a sufficient bound always
exists, which is the loop's termination). -/
def subLoopFuel : ℕ → List TexturedTriangle → List TexturedTriangle →
    Option (List TexturedTriangle)
  | 0, _, _ => none
  | _ + 1, done, [] => some done
  | n + 1, done, t :: rest =>
    if t.intVolume < 512 then subLoopFuel n (done ++ [t]) rest
    else
      subLoopFuel n done
        (t.subdivide4.1 :: rest ++
          [t.subdivide4.2.1, t.subdivide4.2.2.1, t.subdivide4.2.2.2])

lemma subLoopFuel_mono (n : ℕ) :
    ∀ (done todo r : List TexturedTriangle),
      subLoopFuel n done todo = some r → subLoopFuel (n + 1) done todo = some r := by
  induction n with
  | zero => intro done todo r h; exact absurd h (by simp [subLoopFuel])
  | succ n ih =>
    intro done todo r h
    match todo with
    | [] => exact h
    | t :: rest =>
      rw [subLoopFuel] at h ⊢
      by_cases hv : t.intVolume < 512
      · rw [if_pos hv] at h ⊢
        exact ih _ _ _ h
      · rw [if_neg hv] at h ⊢
        exact ih _ _ _ h

lemma subLoopFuel_mono_le {n m : ℕ} (h : n ≤ m) :
    ∀ (done todo r : List TexturedTriangle),
      subLoopFuel n done todo = some r → subLoopFuel m done todo = some r := by
  induction m with
  | zero =>
    intro done todo r hr
    rw [Nat.le_zero.1 h] at hr
    exact hr
  | succ m ih =>
    intro done todo r hr
    rcases Nat.lt_or_ge n (m + 1) with hlt | hge
    · exact subLoopFuel_mono m done todo r (ih (by omega) done todo r hr)
    · rw [show n = m + 1 by omega] at hr
      exact hr

/-- The loop's termination: some fuel bound always suffices.  The measure is
the sum over the pending triangles of `5 ^ muFuel`, which strictly drops
both when a triangle is passed over and when it is replaced by its four
quarters (each quarter needs one halving less). -/
lemma subLoopFuel_total (done todo : List TexturedTriangle) :
    ∃ n r, subLoopFuel n done todo = some r := by
  generalize hM : (todo.map fun u => 5 ^ muFuel u).sum = M
  induction M using Nat.strong_induction_on generalizing done todo with
  | _ M ih =>
    match todo with
    | [] => exact ⟨1, done, rfl⟩
    | t :: rest =>
      by_cases hv : t.intVolume < 512
      · have hpos : 0 < 5 ^ muFuel t := Nat.pos_pow_of_pos _ (by norm_num)
        have hM' : (rest.map fun u => 5 ^ muFuel u).sum < M := by
          rw [← hM]
          simp only [List.map_cons, List.sum_cons]
          omega
        obtain ⟨n, r, hn⟩ := ih _ hM' (done ++ [t]) rest rfl
        refine ⟨n + 1, r, ?_⟩
        rw [subLoopFuel, if_pos hv]
        exact hn
      · have h6 : 6 < t.maxExtentQ := six_lt_maxExtentQ t (by omega)
        have hq : ∀ c ∈ t.quarters, 5 ^ muFuel c ≤ 5 ^ (muFuel t - 1) := by
          intro c hcq
          exact Nat.pow_le_pow_right (by norm_num)
            (by have := muFuel_quarter_lt t c hcq h6; omega)
        have hmu : muFuel t ≠ 0 := by
          intro h0
          have := muFuel_quarter_lt t t.subdivide4.1
            (by simp [TexturedTriangle.quarters]) h6
          omega
        have h5 : 5 ^ muFuel t = 5 * 5 ^ (muFuel t - 1) := by
          rw [← pow_succ']
          congr 1
          omega
        have hb1 := hq t.subdivide4.1 (by simp [TexturedTriangle.quarters])
        have hb2 := hq t.subdivide4.2.1 (by simp [TexturedTriangle.quarters])
        have hb3 := hq t.subdivide4.2.2.1 (by simp [TexturedTriangle.quarters])
        have hb4 := hq t.subdivide4.2.2.2 (by simp [TexturedTriangle.quarters])
        have hbpos : 0 < 5 ^ (muFuel t - 1) := Nat.pos_pow_of_pos _ (by norm_num)
        have hM' : ((t.subdivide4.1 :: rest ++
            [t.subdivide4.2.1, t.subdivide4.2.2.1, t.subdivide4.2.2.2]).map
              fun u => 5 ^ muFuel u).sum < M := by
          rw [← hM]
          simp only [List.map_cons, List.map_append, List.sum_cons,
            List.sum_append, List.map_nil, List.sum_nil]
          omega
        obtain ⟨n, r, hn⟩ := ih _ hM' done _ rfl
        refine ⟨n + 1, r, ?_⟩
        rw [subLoopFuel, if_neg hv]
        exact hn

lemma subLoopFuel_deterministic {n m : ℕ} {done todo r r' : List TexturedTriangle}
    (h : subLoopFuel n done todo = some r) (h' : subLoopFuel m done todo = some r') :
    r = r' := by
  have h1 := subLoopFuel_mono_le (Nat.le_max_left n m) done todo r h
  have h2 := subLoopFuel_mono_le (Nat.le_max_right n m) done todo r' h'
  rw [h1] at h2
  exact Option.some_injective _ h2

/-- The result of the work loop of `subdivideLargeVolumeTriangles` (which
always exists, by `subLoopFuel_total`). -/
noncomputable def subLoop (done todo : List TexturedTriangle) : List TexturedTriangle :=
  (subLoopFuel (Classical.choose (subLoopFuel_total done todo)) done todo).getD done

lemma subLoop_spec (done todo : List TexturedTriangle) :
    ∃ n, subLoopFuel n done todo = some (subLoop done todo) := by
  obtain ⟨r, hr⟩ := Classical.choose_spec (subLoopFuel_total done todo)
  refine ⟨Classical.choose (subLoopFuel_total done todo), ?_⟩
  unfold subLoop
  rw [hr]
  rfl

lemma subLoop_eq_of_fuel {n : ℕ} {done todo r : List TexturedTriangle}
    (h : subLoopFuel n done todo = some r) : subLoop done todo = r := by
  obtain ⟨m, hm⟩ := subLoop_spec done todo
  exact subLoopFuel_deterministic hm h

/-- The `subdivideLargeVolumeTriangles` of `voxelization.cpp`: the input
triangle is pushed onto the output vector; if its `diagonality01` is below
one half it is returned unmodified, otherwise the work loop subdivides. -/
noncomputable def subdivideLargeVolumeTriangles (inputTriangle : TexturedTriangle) :
    List TexturedTriangle :=
  if diagonality01 inputTriangle < 1 / 2 then [inputTriangle]
  else subLoop [] [inputTriangle]

instance : Sub R3 := ⟨fun a b => ⟨a.x - b.x, a.y - b.y, a.z - b.z⟩⟩

/-- The signed distance of a point from a plane,
`distance_point_plane(p, org, normal) = dot(normal, p - org)`. -/
noncomputable def distance_point_plane (p org normal : R3) : ℝ :=
  R3.dot normal (p - org)

/-- The voxel center `pos + (0.5, 0.5, 0.5)`. -/
noncomputable def voxelCenter (pos : P3) : R3 :=
  ⟨(pos.x : ℝ) + 1 / 2, (pos.y : ℝ) + 1 / 2, (pos.z : ℝ) + 1 / 2⟩

/-- The integer range `[lo, hi)` as a list. -/
def intRange (lo hi : ℤ) : List ℤ :=
  (List.range (hi - lo).toNat).map fun i => lo + (i : ℤ)

/-- The voxel positions visited by the triple loop of `voxelizeSubTriangle`:
`z` from `vmin.z` to `vmax.z` (exclusive) outermost, then `y`, then `x`. -/
def voxelPositions (sub : TexturedTriangle) : List P3 :=
  (intRange (sub.voxelMin.z) (sub.voxelMax.z)).flatMap fun z =>
    (intRange (sub.voxelMin.y) (sub.voxelMax.y)).flatMap fun y =>
      (intRange (sub.voxelMin.x) (sub.voxelMax.x)).map fun x => ⟨x, y, z⟩

/-- The body of the position loop of `voxelizeSubTriangle`: skip the voxel if
the plane-distance cull rejects it, otherwise clip through `voxelizeVoxel`
and insert the color under the given strategy when its weight is exactly
nonzero. -/
noncomputable def subTriangleStep (strategy : ColorStrategy)
    (inputTriangle : VisualTriangle) (subTriangle : TexturedTriangle)
    (m : VoxelMap) (pos : P3) : VoxelMap :=
  if |distance_point_plane (voxelCenter pos) (subTriangle.vertex 0).toR
        (V3.normalize subTriangle.normal)| > 2 then m
  else if (voxelizeVoxel inputTriangle pos [subTriangle]).weight = 0 then m
  else insertColor strategy m pos (voxelizeVoxel inputTriangle pos [subTriangle])

/-- The `voxelizeSubTriangle` of `voxelization.cpp`: iterate the voxel
bounding box of the sub-triangle, cull by plane distance, clip each
remaining voxel, and fold each nonzero contribution into the output map with
`insertColor<ColorStrategy::BLEND>` (the strategy is hard-coded to BLEND at
this insert site in the source). -/
noncomputable def voxelizeSubTriangle (inputTriangle : VisualTriangle)
    (subTriangle : TexturedTriangle) (out : VoxelMap) : VoxelMap :=
  (voxelPositions subTriangle).foldl
    (subTriangleStep .BLEND inputTriangle subTriangle) out

/-- The per-voxel fold as the specification words it (§4.6): identical to
`voxelizeSubTriangle` except that the insert site uses the configured
color strategy. -/
noncomputable def voxelizeSubTriangleWith (strategy : ColorStrategy)
    (inputTriangle : VisualTriangle) (subTriangle : TexturedTriangle)
    (out : VoxelMap) : VoxelMap :=
  (voxelPositions subTriangle).foldl
    (subTriangleStep strategy inputTriangle subTriangle) out

/-- The voxel map produced for a single input triangle starting from cleared
state: subdivide, then voxelize every sub-triangle into an empty map. -/
noncomputable def voxelizeSingleTriangleMap (inputTriangle : VisualTriangle) : VoxelMap :=
  (subdivideLargeVolumeTriangles inputTriangle.tri).foldl
    (fun m sub => voxelizeSubTriangle inputTriangle sub m) VoxelMap.empty

/-- The free function `voxelize` of `voxelization.cpp`: all three scratch
buffers and the output map are cleared at entry (so the passed-in contents
are discarded), the input triangle is subdivided into `buffers[0]`, and each
sub-triangle is voxelized into the cleared output map. -/
noncomputable def voxelize (inputTriangle : VisualTriangle)
    (buffers : List TexturedTriangle × List TexturedTriangle × List TexturedTriangle)
    (out : VoxelMap) : VoxelMap :=
  let clearedOut : VoxelMap := VoxelMap.empty
  let buffer0 := subdivideLargeVolumeTriangles inputTriangle.tri
  buffer0.foldl (fun m sub => voxelizeSubTriangle inputTriangle sub m) clearedOut

/-- The configuration record of the threaded driver.  Modelled from the spec
(§6): `VoxelizationArgs` is declared in the missing `filevoxelization.hpp`. -/
structure VoxelizationArgs where
  resolution : ℕ
  colorStrategy : ColorStrategy
  permutation : Fin 3 → ℕ
  downscale : Bool

/-- The axis triple being a permutation of `(0, 1, 2)`. -/
def permutationValid (p : Fin 3 → ℕ) : Prop :=
  [p 0, p 1, p 2].Perm [0, 1, 2]

/-- What the entry of the driver `voxelize` of `filevoxelization.cpp`
observably does before any voxelization work: whether an invalid
configuration was rejected, how many worker threads were spawned, and
whether the empty-mesh early return (flush and report success) was taken.
The source checks only `stream.vertexCount() == 0`; it performs no
validation of the arguments and otherwise spawns `hardware_concurrency`
workers. -/
structure DriverEntry where
  rejected : Bool
  workersSpawned : ℕ
  emptyMeshReturn : Bool

/-- The entry behaviour of the driver `voxelize` (lines 202-230 of
`filevoxelization.cpp`) as a function of the configuration, the vertex
count of the stream, and the hardware concurrency. -/
def driverEntry (_ : VoxelizationArgs) (vertexCount : ℕ) (hardwareConcurrency : ℕ) :
    DriverEntry :=
  if vertexCount = 0 then ⟨false, 0, true⟩
  else ⟨false, hardwareConcurrency, false⟩

/-- A command travelling through the worker queue. -/
inductive WorkerCommandKind where
  | voxelizeTriangle
  | mergeMaps
  | exitCommand
deriving DecidableEq

/-- Observable state of the command queue, its completion counter, and the
commands in flight.  `pendingPush` counts commands whose `issue` has already
incremented the counter but not yet pushed into the ring buffer (the two
steps of `CommandQueue::issue` are separately atomic); `queued` counts
buffered commands; `running` counts commands popped by a worker whose
execution (including an `Exit`) has not yet reached `queue.complete()`;
`completedCount` counts commands whose `complete()` has run.  `counter` is
the `commandCounter`. -/
structure QueueState where
  counter : ℕ
  issuedCount : ℕ
  pendingPush : ℕ
  queued : ℕ
  running : ℕ
  completedCount : ℕ
deriving DecidableEq

/-- The initial queue state: nothing issued. -/
def QueueState.init : QueueState := ⟨0, 0, 0, 0, 0, 0⟩

/-- One atomic step of the command pipeline: the producer's
`++commandCounter` followed (separately) by `buffer.push`, a worker's
blocking `pop`, and a worker finishing a command's execution and running
`queue.complete()` (`--commandCounter`), which happens only after the
command - of any kind, `Exit` included - was run.  `push` blocks on a full
ring buffer of capacity 128, `pop` blocks on an empty one. -/
inductive QueueStep : QueueState → QueueState → Prop
  | issueIncrement (s : QueueState) :
      QueueStep s ⟨s.counter + 1, s.issuedCount + 1, s.pendingPush + 1,
        s.queued, s.running, s.completedCount⟩
  | issuePush (s : QueueState) (hp : 0 < s.pendingPush) (hq : s.queued < 128) :
      QueueStep s ⟨s.counter, s.issuedCount, s.pendingPush - 1,
        s.queued + 1, s.running, s.completedCount⟩
  | popCommand (s : QueueState) (hq : 0 < s.queued) :
      QueueStep s ⟨s.counter, s.issuedCount, s.pendingPush,
        s.queued - 1, s.running + 1, s.completedCount⟩
  | runAndComplete (s : QueueState) (hr : 0 < s.running) :
      QueueStep s ⟨s.counter - 1, s.issuedCount, s.pendingPush,
        s.queued, s.running - 1, s.completedCount + 1⟩

/-- Reachability of a queue state from the initial state. -/
def QueueReachable (s : QueueState) : Prop :=
  Relation.ReflTransGen QueueStep QueueState.init s

lemma V3.sub3_def (a b : V3) : a - b = ⟨a.x - b.x, a.y - b.y, a.z - b.z⟩ := rfl

lemma V2.sub2_def (a b : V2) : a - b = ⟨a.u - b.u, a.v - b.v⟩ := rfl

lemma clipLoopWith_nil (modeOf : Bool → DiscardMode) (pos : P3)
    (buffer : List TexturedTriangle) :
    clipLoopWith modeOf pos [] buffer = some buffer := rfl

lemma clipLoopWith_cons (modeOf : Bool → DiscardMode) (pos : P3) (hi : Bool)
    (axis : Fin 3) (rest : List (Bool × Fin 3)) (buffer : List TexturedTriangle) :
    clipLoopWith modeOf pos ((hi, axis) :: rest) buffer =
      (if clipPass (modeOf hi) axis (pos.nth axis + (if hi then 1 else 0)) buffer
          = [] then none
       else clipLoopWith modeOf pos rest
         (clipPass (modeOf hi) axis (pos.nth axis + (if hi then 1 else 0)) buffer)) :=
  rfl

/-- One clipping step whose pass result is known and nonempty. -/
lemma clipLoopWith_step (modeOf : Bool → DiscardMode) (pos : P3) (hi : Bool)
    (axis : Fin 3) (rest : List (Bool × Fin 3))
    (buffer : List TexturedTriangle) (u : TexturedTriangle)
    (us : List TexturedTriangle)
    (hpass : clipPass (modeOf hi) axis (pos.nth axis + (if hi then 1 else 0)) buffer
      = u :: us) :
    clipLoopWith modeOf pos ((hi, axis) :: rest) buffer =
      clipLoopWith modeOf pos rest (u :: us) := by
  rw [clipLoopWith_cons, hpass]
  simp

/-- One clipping step whose pass result is known and empty. -/
lemma clipLoopWith_step_empty (modeOf : Bool → DiscardMode) (pos : P3) (hi : Bool)
    (axis : Fin 3) (rest : List (Bool × Fin 3)) (buffer : List TexturedTriangle)
    (hpass : clipPass (modeOf hi) axis (pos.nth axis + (if hi then 1 else 0)) buffer
      = []) :
    clipLoopWith modeOf pos ((hi, axis) :: rest) buffer = none := by
  rw [clipLoopWith_cons, hpass]
  simp

/-- The inductive invariant of the command pipeline: the counter holds the
number of issued commands not yet completed, and every issued command is in
exactly one of the pending-push, queued, running or completed stages. -/
def QueueInv (s : QueueState) : Prop :=
  s.counter + s.completedCount = s.issuedCount ∧
    s.issuedCount = s.pendingPush + s.queued + s.running + s.completedCount

lemma queueInv_init : QueueInv QueueState.init := by
  constructor <;> rfl

lemma queueInv_step (s s' : QueueState) (hs : QueueInv s) (h : QueueStep s s') :
    QueueInv s' := by
  obtain ⟨h1, h2⟩ := hs
  cases h with
  | issueIncrement => exact ⟨by simp; omega, by simp; omega⟩
  | issuePush hp hq => exact ⟨by simp; omega, by simp; omega⟩
  | popCommand hq => exact ⟨by simp; omega, by simp; omega⟩
  | runAndComplete hr => exact ⟨by simp; omega, by simp; omega⟩

lemma queueInv_reachable (s : QueueState) (h : QueueReachable s) : QueueInv s := by
  induction h with
  | refl => exact queueInv_init
  | tail _ hstep ih => exact queueInv_step _ _ ih hstep

/-- Claim C9 (confirmed).  Completion-counter discipline: in every reachable
state of the command pipeline the completion counter equals the number of
issued commands minus the number of completed ones (each issued command,
`Exit` included, incremented it once and each completion decremented it once
after the command ran), and whenever the counter is zero - the condition
under which `waitForCompletion` returns - no issued command is still
pending, buffered, or popped-but-unfinished. -/
theorem queue_counter_discipline (s : QueueState) (h : QueueReachable s) :
    (s.counter + s.completedCount = s.issuedCount ∧
      s.issuedCount = s.pendingPush + s.queued + s.running + s.completedCount) ∧
    (s.counter = 0 →
      s.pendingPush = 0 ∧ s.queued = 0 ∧ s.running = 0 ∧
      s.completedCount = s.issuedCount) := by
  have hinv := queueInv_reachable s h
  obtain ⟨h1, h2⟩ := hinv
  refine ⟨⟨h1, h2⟩, fun h0 => ?_⟩
  omega

/-- Witness for C9 at the initial state. -/
theorem queue_counter_discipline_witness :
    (QueueState.init.counter + QueueState.init.completedCount
        = QueueState.init.issuedCount ∧
      QueueState.init.issuedCount = QueueState.init.pendingPush +
        QueueState.init.queued + QueueState.init.running +
        QueueState.init.completedCount) ∧
    (QueueState.init.counter = 0 →
      QueueState.init.pendingPush = 0 ∧ QueueState.init.queued = 0 ∧
        QueueState.init.running = 0 ∧
        QueueState.init.completedCount = QueueState.init.issuedCount) :=
  queue_counter_discipline QueueState.init Relation.ReflTransGen.refl

/-- A configuration with resolution zero (and an identity axis triple),
used to exhibit the absence of entry validation. -/
def zeroResolutionArgs : VoxelizationArgs :=
  ⟨0, ColorStrategy.BLEND, fun i => (i : ℕ), false⟩

/-- Claim C5, counterexample.  The claim asserts that a configuration with
`resolution = 0` is detected at driver entry, reported as a failure, and
that no worker threads are spawned; but the driver entry performs no such
validation: with a nonempty mesh and hardware concurrency 4 it rejects
nothing and spawns 4 workers. -/
theorem driver_validation_claim_false :
    zeroResolutionArgs.resolution = 0 ∧
    (driverEntry zeroResolutionArgs 1 4).rejected = false ∧
    (driverEntry zeroResolutionArgs 1 4).workersSpawned = 4 := by
  refine ⟨rfl, ?_, ?_⟩ <;> simp [driverEntry, zeroResolutionArgs]

/-- Claim C5 as amended.  The driver entry of `filevoxelization.cpp`
validates nothing: for every configuration (valid or not) it never rejects;
its only short-circuit is the empty-mesh path (which reports success and
spawns no worker), and for a nonempty mesh it spawns one worker per unit of
hardware concurrency regardless of resolution or permutation. -/
theorem driverEntry_no_validation (args : VoxelizationArgs) (vertexCount hw : ℕ) :
    (driverEntry args vertexCount hw).rejected = false ∧
    (vertexCount = 0 → driverEntry args vertexCount hw = ⟨false, 0, true⟩) ∧
    (vertexCount ≠ 0 → driverEntry args vertexCount hw = ⟨false, hw, false⟩) := by
  unfold driverEntry
  by_cases h : vertexCount = 0 <;> simp [h]

/-- Witness for the amended C5 at both a zero and a nonzero vertex count. -/
theorem driverEntry_no_validation_witness :
    driverEntry zeroResolutionArgs 0 4 = ⟨false, 0, true⟩ ∧
    driverEntry zeroResolutionArgs 1 4 = ⟨false, 4, false⟩ :=
  ⟨(driverEntry_no_validation zeroResolutionArgs 0 4).2.1 rfl,
   (driverEntry_no_validation zeroResolutionArgs 1 4).2.2 (by norm_num)⟩

/-- Claim C10 (confirmed).  The free function `voxelize` clears the three
scratch buffers and the output map at entry: its result is the voxel map of
the single input triangle alone, and in particular it does not depend on
the previous contents of the buffers or of the output map. -/
theorem voxelize_clears_state (inputTriangle : VisualTriangle)
    (buffers buffers' :
      List TexturedTriangle × List TexturedTriangle × List TexturedTriangle)
    (out out' : VoxelMap) :
    voxelize inputTriangle buffers out = voxelizeSingleTriangleMap inputTriangle ∧
    voxelize inputTriangle buffers out = voxelize inputTriangle buffers' out' :=
  ⟨rfl, rfl⟩

lemma b2n_eq_one_iff (p : Prop) [Decidable p] : b2n p = 1 ↔ p := by
  unfold b2n
  by_cases h : p <;> simp [h]

lemma b2n_eq_zero_iff (p : Prop) [Decidable p] : b2n p = 0 ↔ ¬ p := by
  unfold b2n
  by_cases h : p <;> simp [h]

lemma b2n_le_one (p : Prop) [Decidable p] : b2n p ≤ 1 := by
  unfold b2n
  by_cases h : p <;> simp [h]

lemma splitEvents_planar3 (t : TexturedTriangle) (axis : Fin 3) (plane : ℤ)
    (h : planarCount t axis plane = 3) : splitEvents axis plane t = [(true, t)] := by
  unfold splitEvents
  rw [if_pos h]

lemma loCount_eq_three (t : TexturedTriangle) (axis : Fin 3) (plane : ℤ)
    (h : ∀ i, isLoVertex t axis plane i) : loCount t axis plane = 3 := by
  unfold loCount
  rw [(b2n_eq_one_iff _).2 (h 0), (b2n_eq_one_iff _).2 (h 1), (b2n_eq_one_iff _).2 (h 2)]

lemma loCount_eq_zero (t : TexturedTriangle) (axis : Fin 3) (plane : ℤ)
    (h : ∀ i, ¬ isLoVertex t axis plane i) : loCount t axis plane = 0 := by
  unfold loCount
  rw [(b2n_eq_zero_iff _).2 (h 0), (b2n_eq_zero_iff _).2 (h 1), (b2n_eq_zero_iff _).2 (h 2)]

lemma splitEvents_all_lo (t : TexturedTriangle) (axis : Fin 3) (plane : ℤ)
    (h : ∀ i, isLoVertex t axis plane i) : splitEvents axis plane t = [(true, t)] := by
  by_cases h3 : planarCount t axis plane = 3
  · exact splitEvents_planar3 t axis plane h3
  · unfold splitEvents
    rw [if_neg h3, if_neg (by rw [loCount_eq_three t axis plane h]; omega),
      if_pos (loCount_eq_three t axis plane h)]

lemma splitEvents_all_hi (t : TexturedTriangle) (axis : Fin 3) (plane : ℤ)
    (h : ∀ i, ¬ isLoVertex t axis plane i)
    (h3 : planarCount t axis plane ≠ 3) : splitEvents axis plane t = [(false, t)] := by
  unfold splitEvents
  rw [if_neg h3, if_pos (loCount_eq_zero t axis plane h)]

lemma planar2_cases (t : TexturedTriangle) (axis : Fin 3) (plane : ℤ)
    (h : planarCount t axis plane = 2) :
    (¬ isPlanarVertex t axis plane 0 ∧ isPlanarVertex t axis plane 1 ∧
        isPlanarVertex t axis plane 2) ∨
    (isPlanarVertex t axis plane 0 ∧ ¬ isPlanarVertex t axis plane 1 ∧
        isPlanarVertex t axis plane 2) ∨
    (isPlanarVertex t axis plane 0 ∧ isPlanarVertex t axis plane 1 ∧
        ¬ isPlanarVertex t axis plane 2) := by
  unfold planarCount at h
  by_cases h0 : isPlanarVertex t axis plane 0 <;>
    by_cases h1 : isPlanarVertex t axis plane 1 <;>
      by_cases h2 : isPlanarVertex t axis plane 2 <;>
        simp [b2n, h0, h1, h2] at h ⊢ <;> tauto

lemma planar1_cases (t : TexturedTriangle) (axis : Fin 3) (plane : ℤ)
    (h : planarCount t axis plane = 1) :
    (isPlanarVertex t axis plane 0 ∧ ¬ isPlanarVertex t axis plane 1 ∧
        ¬ isPlanarVertex t axis plane 2) ∨
    (¬ isPlanarVertex t axis plane 0 ∧ isPlanarVertex t axis plane 1 ∧
        ¬ isPlanarVertex t axis plane 2) ∨
    (¬ isPlanarVertex t axis plane 0 ∧ ¬ isPlanarVertex t axis plane 1 ∧
        isPlanarVertex t axis plane 2) := by
  unfold planarCount at h
  by_cases h0 : isPlanarVertex t axis plane 0 <;>
    by_cases h1 : isPlanarVertex t axis plane 1 <;>
      by_cases h2 : isPlanarVertex t axis plane 2 <;>
        simp [b2n, h0, h1, h2] at h ⊢ <;> tauto

lemma splitEvents_planar2 (t : TexturedTriangle) (axis : Fin 3) (plane : ℤ)
    (h : planarCount t axis plane = 2) (j : Fin 3)
    (hj : ¬ isPlanarVertex t axis plane j) :
    splitEvents axis plane t = [(decide (isLoVertex t axis plane j), t)] := by
  have h3 : planarCount t axis plane ≠ 3 := by omega
  by_cases hl0 : loCount t axis plane = 0
  · have hnl : ∀ i, ¬ isLoVertex t axis plane i := by
      intro i
      have e0 := b2n_eq_zero_iff (isLoVertex t axis plane 0)
      have e1 := b2n_eq_zero_iff (isLoVertex t axis plane 1)
      have e2 := b2n_eq_zero_iff (isLoVertex t axis plane 2)
      have b0 := b2n_le_one (isLoVertex t axis plane 0)
      have b1 := b2n_le_one (isLoVertex t axis plane 1)
      have b2 := b2n_le_one (isLoVertex t axis plane 2)
      unfold loCount at hl0
      fin_cases i
      · exact e0.1 (by omega)
      · exact e1.1 (by omega)
      · exact e2.1 (by omega)
    rw [splitEvents_all_hi t axis plane hnl h3]
    simp [hnl j]
  · by_cases hl3 : loCount t axis plane = 3
    · have hal : ∀ i, isLoVertex t axis plane i := by
        intro i
        have e0 := b2n_eq_one_iff (isLoVertex t axis plane 0)
        have e1 := b2n_eq_one_iff (isLoVertex t axis plane 1)
        have e2 := b2n_eq_one_iff (isLoVertex t axis plane 2)
        have b0 := b2n_le_one (isLoVertex t axis plane 0)
        have b1 := b2n_le_one (isLoVertex t axis plane 1)
        have b2 := b2n_le_one (isLoVertex t axis plane 2)
        unfold loCount at hl3
        fin_cases i
        · exact e0.1 (by omega)
        · exact e1.1 (by omega)
        · exact e2.1 (by omega)
      rw [splitEvents_all_lo t axis plane hal]
      simp [hal j]
    · unfold splitEvents
      rw [if_neg h3, if_neg hl0, if_neg hl3, if_pos h]
      rcases planar2_cases t axis plane h with ⟨c0, c1, c2⟩ | ⟨c0, c1, c2⟩ | ⟨c0, c1, c2⟩
      · have hj0 : j = 0 := by
          fin_cases j
          · rfl
          · exact absurd c1 hj
          · exact absurd c2 hj
        subst hj0
        simp [isLoVertex, c0]
      · have hj1 : j = 1 := by
          fin_cases j
          · exact absurd c0 hj
          · rfl
          · exact absurd c2 hj
        subst hj1
        simp [isLoVertex, c0, c1]
      · have hj2 : j = 2 := by
          fin_cases j
          · exact absurd c0 hj
          · exact absurd c1 hj
          · rfl
        subst hj2
        simp [isLoVertex, c0, c1, c2]

lemma splitEvents_planar1_lo (t : TexturedTriangle) (axis : Fin 3) (plane : ℤ)
    (h : planarCount t axis plane = 1)
    (hside : ∀ i, ¬ isPlanarVertex t axis plane i → isLoVertex t axis plane i) :
    splitEvents axis plane t = [(true, t)] := by
  have h3 : planarCount t axis plane ≠ 3 := by omega
  have h2 : planarCount t axis plane ≠ 2 := by omega
  by_cases hl3 : loCount t axis plane = 3
  · have hal : ∀ i, isLoVertex t axis plane i := by
      intro i
      have e0 := b2n_eq_one_iff (isLoVertex t axis plane 0)
      have e1 := b2n_eq_one_iff (isLoVertex t axis plane 1)
      have e2 := b2n_eq_one_iff (isLoVertex t axis plane 2)
      have b0 := b2n_le_one (isLoVertex t axis plane 0)
      have b1 := b2n_le_one (isLoVertex t axis plane 1)
      have b2 := b2n_le_one (isLoVertex t axis plane 2)
      unfold loCount at hl3
      fin_cases i
      · exact e0.1 (by omega)
      · exact e1.1 (by omega)
      · exact e2.1 (by omega)
    exact splitEvents_all_lo t axis plane hal
  · rcases planar1_cases t axis plane h with ⟨c0, c1, c2⟩ | ⟨c0, c1, c2⟩ | ⟨c0, c1, c2⟩
    · have e1 : b2n (isLoVertex t axis plane 1) = 1 :=
        (b2n_eq_one_iff _).2 (hside 1 c1)
      have e2 : b2n (isLoVertex t axis plane 2) = 1 :=
        (b2n_eq_one_iff _).2 (hside 2 c2)
      have hl0 : loCount t axis plane ≠ 0 := by
        unfold loCount
        omega
      unfold splitEvents
      rw [if_neg h3, if_neg hl0, if_neg hl3, if_neg h2, if_pos h]
      simp only [c0, if_true, nxt, e1, e2]
      norm_num
    · have e0 : b2n (isLoVertex t axis plane 0) = 1 :=
        (b2n_eq_one_iff _).2 (hside 0 c0)
      have e2 : b2n (isLoVertex t axis plane 2) = 1 :=
        (b2n_eq_one_iff _).2 (hside 2 c2)
      have hl0 : loCount t axis plane ≠ 0 := by
        unfold loCount
        omega
      unfold splitEvents
      rw [if_neg h3, if_neg hl0, if_neg hl3, if_neg h2, if_pos h]
      simp only [c0, c1, if_true, if_false, ite_false, ite_true, nxt, e0, e2]
      norm_num
    · have e0 : b2n (isLoVertex t axis plane 0) = 1 :=
        (b2n_eq_one_iff _).2 (hside 0 c0)
      have e1 : b2n (isLoVertex t axis plane 1) = 1 :=
        (b2n_eq_one_iff _).2 (hside 1 c1)
      have hl0 : loCount t axis plane ≠ 0 := by
        unfold loCount
        omega
      unfold splitEvents
      rw [if_neg h3, if_neg hl0, if_neg hl3, if_neg h2, if_pos h]
      simp only [c0, c1, c2, if_true, if_false, ite_false, ite_true, nxt, e0, e1]
      norm_num

lemma splitEvents_planar1_hi (t : TexturedTriangle) (axis : Fin 3) (plane : ℤ)
    (h : planarCount t axis plane = 1)
    (hside : ∀ i, ¬ isPlanarVertex t axis plane i → ¬ isLoVertex t axis plane i) :
    splitEvents axis plane t = [(false, t)] := by
  have h3 : planarCount t axis plane ≠ 3 := by omega
  have h2 : planarCount t axis plane ≠ 2 := by omega
  by_cases hl0 : loCount t axis plane = 0
  · refine splitEvents_all_hi t axis plane ?_ h3
    intro i
    have e0 := b2n_eq_zero_iff (isLoVertex t axis plane 0)
    have e1 := b2n_eq_zero_iff (isLoVertex t axis plane 1)
    have e2 := b2n_eq_zero_iff (isLoVertex t axis plane 2)
    have b0 := b2n_le_one (isLoVertex t axis plane 0)
    have b1 := b2n_le_one (isLoVertex t axis plane 1)
    have b2 := b2n_le_one (isLoVertex t axis plane 2)
    unfold loCount at hl0
    fin_cases i
    · exact e0.1 (by omega)
    · exact e1.1 (by omega)
    · exact e2.1 (by omega)
  · rcases planar1_cases t axis plane h with ⟨c0, c1, c2⟩ | ⟨c0, c1, c2⟩ | ⟨c0, c1, c2⟩
    · have e1 : b2n (isLoVertex t axis plane 1) = 0 :=
        (b2n_eq_zero_iff _).2 (hside 1 c1)
      have e2 : b2n (isLoVertex t axis plane 2) = 0 :=
        (b2n_eq_zero_iff _).2 (hside 2 c2)
      have hl3 : loCount t axis plane ≠ 3 := by
        have b0 := b2n_le_one (isLoVertex t axis plane 0)
        unfold loCount
        omega
      unfold splitEvents
      rw [if_neg h3, if_neg hl0, if_neg hl3, if_neg h2, if_pos h]
      simp only [c0, if_true, nxt, e1, e2]
      norm_num
    · have e0 : b2n (isLoVertex t axis plane 0) = 0 :=
        (b2n_eq_zero_iff _).2 (hside 0 c0)
      have e2 : b2n (isLoVertex t axis plane 2) = 0 :=
        (b2n_eq_zero_iff _).2 (hside 2 c2)
      have hl3 : loCount t axis plane ≠ 3 := by
        have b1 := b2n_le_one (isLoVertex t axis plane 1)
        unfold loCount
        omega
      unfold splitEvents
      rw [if_neg h3, if_neg hl0, if_neg hl3, if_neg h2, if_pos h]
      simp only [c0, c1, if_true, if_false, ite_false, ite_true, nxt, e0, e2]
      norm_num
    · have e0 : b2n (isLoVertex t axis plane 0) = 0 :=
        (b2n_eq_zero_iff _).2 (hside 0 c0)
      have e1 : b2n (isLoVertex t axis plane 1) = 0 :=
        (b2n_eq_zero_iff _).2 (hside 1 c1)
      have hl3 : loCount t axis plane ≠ 3 := by
        have b2 := b2n_le_one (isLoVertex t axis plane 2)
        unfold loCount
        omega
      unfold splitEvents
      rw [if_neg h3, if_neg hl0, if_neg hl3, if_neg h2, if_pos h]
      simp only [c0, c1, c2, if_true, if_false, ite_false, ite_true, nxt, e0, e1]
      norm_num

lemma splitTriangle_of_events_lo (t : TexturedTriangle) (axis : Fin 3) (plane : ℤ)
    (h : splitEvents axis plane t = [(true, t)]) :
    splitTriangle .NONE axis plane t = ([t], []) := by
  unfold splitTriangle
  rw [h]
  rfl

lemma splitTriangle_of_events_hi (t : TexturedTriangle) (axis : Fin 3) (plane : ℤ)
    (h : splitEvents axis plane t = [(false, t)]) :
    splitTriangle .NONE axis plane t = ([], [t]) := by
  unfold splitTriangle
  rw [h]
  rfl

/-- Claim C6 (confirmed).  The no-split case table of `splitTriangle` with
`DiscardMode = NONE`, rows taken in the table's order (the all-planar row
takes precedence over the all-hi row, exactly as the source checks
`planarSum == 3` first): all three vertices planar emits the whole triangle
to `lo`; all vertices lo (resp. hi, when not all planar) emits to `lo`
(resp. `hi`); with two planar vertices the whole triangle goes to the side
of the unique non-planar vertex, `lo` iff its coordinate on the split axis
is at most the plane; with one planar vertex and both non-planar vertices
on one side, the whole triangle goes to that side. -/
theorem splitTriangle_no_split_table (t : TexturedTriangle) (axis : Fin 3) (plane : ℤ) :
    (planarCount t axis plane = 3 → splitTriangle .NONE axis plane t = ([t], [])) ∧
    ((∀ i, isLoVertex t axis plane i) →
      splitTriangle .NONE axis plane t = ([t], [])) ∧
    ((∀ i, ¬ isLoVertex t axis plane i) → planarCount t axis plane ≠ 3 →
      splitTriangle .NONE axis plane t = ([], [t])) ∧
    (planarCount t axis plane = 2 → ∀ j, ¬ isPlanarVertex t axis plane j →
      splitTriangle .NONE axis plane t =
        (if isLoVertex t axis plane j then ([t], []) else ([], [t]))) ∧
    (planarCount t axis plane = 1 →
      (∀ i, ¬ isPlanarVertex t axis plane i → isLoVertex t axis plane i) →
      splitTriangle .NONE axis plane t = ([t], [])) ∧
    (planarCount t axis plane = 1 →
      (∀ i, ¬ isPlanarVertex t axis plane i → ¬ isLoVertex t axis plane i) →
      splitTriangle .NONE axis plane t = ([], [t])) := by
  refine ⟨fun h => ?_, fun h => ?_, fun h h3 => ?_, fun h j hj => ?_,
    fun h hs => ?_, fun h hs => ?_⟩
  · exact splitTriangle_of_events_lo t axis plane (splitEvents_planar3 t axis plane h)
  · exact splitTriangle_of_events_lo t axis plane (splitEvents_all_lo t axis plane h)
  · exact splitTriangle_of_events_hi t axis plane (splitEvents_all_hi t axis plane h h3)
  · by_cases hlo : isLoVertex t axis plane j
    · rw [if_pos hlo]
      refine splitTriangle_of_events_lo t axis plane ?_
      rw [splitEvents_planar2 t axis plane h j hj]
      simp [hlo]
    · rw [if_neg hlo]
      refine splitTriangle_of_events_hi t axis plane ?_
      rw [splitEvents_planar2 t axis plane h j hj]
      simp [hlo]
  · exact splitTriangle_of_events_lo t axis plane
      (splitEvents_planar1_lo t axis plane h hs)
  · exact splitTriangle_of_events_hi t axis plane
      (splitEvents_planar1_hi t axis plane h hs)

/-- A null texture triple for concrete example triangles. -/
def zeroUv : V2 := ⟨0, 0⟩

/-- Concrete triangle, all three vertices on the plane `z = 0`. -/
def rowAllPlanar : TexturedTriangle :=
  ⟨⟨0, 0, 0⟩, ⟨1, 0, 0⟩, ⟨0, 1, 0⟩, zeroUv, zeroUv, zeroUv⟩

/-- Concrete triangle, all three vertices on the lo side of `z = 0`. -/
def rowAllLo : TexturedTriangle :=
  ⟨⟨0, 0, -1⟩, ⟨1, 0, -2⟩, ⟨0, 1, -3⟩, zeroUv, zeroUv, zeroUv⟩

/-- Concrete triangle, all three vertices on the hi side of `z = 0`. -/
def rowAllHi : TexturedTriangle :=
  ⟨⟨0, 0, 1⟩, ⟨1, 0, 2⟩, ⟨0, 1, 3⟩, zeroUv, zeroUv, zeroUv⟩

/-- Concrete triangle, two vertices planar, one on the hi side. -/
def rowTwoPlanar : TexturedTriangle :=
  ⟨⟨0, 0, 0⟩, ⟨1, 0, 0⟩, ⟨0, 1, 5⟩, zeroUv, zeroUv, zeroUv⟩

/-- Concrete triangle, one vertex planar, the other two on the lo side. -/
def rowOnePlanarLo : TexturedTriangle :=
  ⟨⟨0, 0, 0⟩, ⟨1, 0, -1⟩, ⟨0, 1, -2⟩, zeroUv, zeroUv, zeroUv⟩

/-- Concrete triangle, one vertex planar, the other two on the hi side. -/
def rowOnePlanarHi : TexturedTriangle :=
  ⟨⟨0, 0, 0⟩, ⟨1, 0, 1⟩, ⟨0, 1, 2⟩, zeroUv, zeroUv, zeroUv⟩

/-- Witness for C6: each row of the case table applied at a concrete
triangle and split plane. -/
theorem splitTriangle_no_split_table_witness :
    splitTriangle .NONE 2 0 rowAllPlanar = ([rowAllPlanar], []) ∧
    splitTriangle .NONE 2 0 rowAllLo = ([rowAllLo], []) ∧
    splitTriangle .NONE 2 0 rowAllHi = ([], [rowAllHi]) ∧
    splitTriangle .NONE 2 0 rowTwoPlanar = ([], [rowTwoPlanar]) ∧
    splitTriangle .NONE 2 0 rowOnePlanarLo = ([rowOnePlanarLo], []) ∧
    splitTriangle .NONE 2 0 rowOnePlanarHi = ([], [rowOnePlanarHi]) := by
  refine ⟨?_, ?_, ?_, ?_, ?_, ?_⟩
  · exact (splitTriangle_no_split_table rowAllPlanar 2 0).1 (by
      norm_num [planarCount, b2n, isPlanarVertex, eqPlane, isZeroQ, EPSILON,
        abs_lt, rowAllPlanar, TexturedTriangle.vertex, V3.nth])
  · exact (splitTriangle_no_split_table rowAllLo 2 0).2.1 (by
      intro i
      fin_cases i <;>
        norm_num [isLoVertex, rowAllLo, TexturedTriangle.vertex, V3.nth])
  · exact (splitTriangle_no_split_table rowAllHi 2 0).2.2.1
      (by
        intro i
        fin_cases i <;>
          norm_num [isLoVertex, rowAllHi, TexturedTriangle.vertex, V3.nth])
      (by
        norm_num [planarCount, b2n, isPlanarVertex, eqPlane, isZeroQ, EPSILON,
          abs_lt, rowAllHi, TexturedTriangle.vertex, V3.nth])
  · have := (splitTriangle_no_split_table rowTwoPlanar 2 0).2.2.2.1
      (by
        norm_num [planarCount, b2n, isPlanarVertex, eqPlane, isZeroQ, EPSILON,
          abs_lt, rowTwoPlanar, TexturedTriangle.vertex, V3.nth])
      2
      (by
        norm_num [isPlanarVertex, eqPlane, isZeroQ, EPSILON, abs_lt,
          rowTwoPlanar, TexturedTriangle.vertex, V3.nth])
    rwa [if_neg (by
      norm_num [isLoVertex, rowTwoPlanar, TexturedTriangle.vertex, V3.nth])] at this
  · exact (splitTriangle_no_split_table rowOnePlanarLo 2 0).2.2.2.2.1
      (by
        norm_num [planarCount, b2n, isPlanarVertex, eqPlane, isZeroQ, EPSILON,
          abs_lt, rowOnePlanarLo, TexturedTriangle.vertex, V3.nth])
      (by
        intro i _
        fin_cases i <;>
          norm_num [isLoVertex, rowOnePlanarLo, TexturedTriangle.vertex, V3.nth])
  · exact (splitTriangle_no_split_table rowOnePlanarHi 2 0).2.2.2.2.2
      (by
        norm_num [planarCount, b2n, isPlanarVertex, eqPlane, isZeroQ, EPSILON,
          abs_lt, rowOnePlanarHi, TexturedTriangle.vertex, V3.nth])
      (by
        intro i hi
        fin_cases i
        · exact absurd (by
            norm_num [isPlanarVertex, eqPlane, isZeroQ, EPSILON, abs_lt,
              rowOnePlanarHi, TexturedTriangle.vertex, V3.nth]) hi
        · norm_num [isLoVertex, rowOnePlanarHi, TexturedTriangle.vertex, V3.nth]
        · norm_num [isLoVertex, rowOnePlanarHi, TexturedTriangle.vertex, V3.nth])

lemma R3.subr_def (a b : R3) : a - b = ⟨a.x - b.x, a.y - b.y, a.z - b.z⟩ := rfl

/-- Evaluation helper: the area of a triangle whose squared normal length is
a known rational square. -/
lemma area_of_normSq (t : TexturedTriangle) (r : ℚ) (h : t.normal.normSq = r * r)
    (hr : 0 ≤ r) : t.area = (r : ℝ) / 2 := by
  unfold TexturedTriangle.area V3.rnorm
  rw [h]
  push_cast
  rw [show ((r : ℝ) * r) = (r : ℝ) ^ 2 by ring,
    Real.sqrt_sq (by exact_mod_cast hr)]

/-- The constant red color used by the concrete examples. -/
def redColor : RGB := ⟨1, 0, 0⟩

/-- A small triangle strictly inside the unit voxel at the origin (at height
`z = 1/2`). -/
def exInterior : TexturedTriangle :=
  ⟨⟨1/4, 1/4, 1/2⟩, ⟨3/4, 1/4, 1/2⟩, ⟨1/4, 3/4, 1/2⟩, zeroUv, zeroUv, zeroUv⟩

/-- The interior triangle as a visual triangle of constant red color. -/
noncomputable def exInteriorVis : VisualTriangle := ⟨exInterior, fun _ => redColor⟩

/-- A triangle lying exactly in the plane `z = 0` (the lower face of the
voxel at the origin). -/
def exPlanarZ : TexturedTriangle :=
  ⟨⟨1/4, 1/4, 0⟩, ⟨3/4, 1/4, 0⟩, ⟨1/4, 3/4, 0⟩, zeroUv, zeroUv, zeroUv⟩

/-- The planar triangle as a visual triangle of constant red color. -/
noncomputable def exPlanarZVis : VisualTriangle := ⟨exPlanarZ, fun _ => redColor⟩

lemma clipLoop_exInterior : clipLoop ⟨0, 0, 0⟩ [exInterior] = some [exInterior] := by
  norm_num [clipLoop, clipLoopWith, clipSteps, clipPass, splitKept, splitEvents,
    planarCount, loCount, isPlanarVertex, isLoVertex, eqPlane, isZeroQ, EPSILON,
    b2n, exInterior, abs_lt, sourceModeOf, TexturedTriangle.vertex, V3.nth, P3.nth,
    List.filterMap_cons, List.filterMap_nil]

lemma clipClaim_exInterior :
    clipLoopWith claimModeOf ⟨0, 0, 0⟩ clipSteps [exInterior] = none := by
  rw [clipSteps]
  refine clipLoopWith_step_empty _ _ _ _ _ _ ?_
  norm_num [claimModeOf, clipPass, splitKept, splitEvents,
    planarCount, loCount, isPlanarVertex, isLoVertex, eqPlane, isZeroQ, EPSILON,
    b2n, exInterior, abs_lt, TexturedTriangle.vertex, V3.nth, P3.nth,
    List.filterMap_cons, List.filterMap_nil]

lemma clipLoop_exPlanarZ : clipLoop ⟨0, 0, 0⟩ [exPlanarZ] = none := by
  show clipLoopWith sourceModeOf ⟨0, 0, 0⟩ clipSteps [exPlanarZ] = none
  rw [clipSteps]
  rw [clipLoopWith_step _ _ _ _ _ _ _ _ (by
    norm_num [sourceModeOf, P3.nth, clipPass, splitKept, splitEvents,
      planarCount, loCount, isPlanarVertex, isLoVertex, eqPlane, isZeroQ, EPSILON,
      b2n, exPlanarZ, abs_lt, TexturedTriangle.vertex, V3.nth,
      List.filterMap_cons, List.filterMap_nil] :
    clipPass (sourceModeOf false) 0 _ [exPlanarZ] = [exPlanarZ])]
  rw [clipLoopWith_step _ _ _ _ _ _ _ _ (by
    norm_num [sourceModeOf, P3.nth, clipPass, splitKept, splitEvents,
      planarCount, loCount, isPlanarVertex, isLoVertex, eqPlane, isZeroQ, EPSILON,
      b2n, exPlanarZ, abs_lt, TexturedTriangle.vertex, V3.nth,
      List.filterMap_cons, List.filterMap_nil] :
    clipPass (sourceModeOf false) 1 _ [exPlanarZ] = [exPlanarZ])]
  refine clipLoopWith_step_empty _ _ _ _ _ _ ?_
  norm_num [sourceModeOf, P3.nth, clipPass, splitKept, splitEvents,
    planarCount, loCount, isPlanarVertex, isLoVertex, eqPlane, isZeroQ, EPSILON,
    b2n, exPlanarZ, abs_lt, TexturedTriangle.vertex, V3.nth,
    List.filterMap_cons, List.filterMap_nil]

lemma normSq_exInterior : exInterior.normal.normSq = (1/4 : ℚ) * (1/4) := by
  norm_num [TexturedTriangle.normal, V3.cross, V3.sub3_def, V3.normSq, exInterior]

lemma area_exInterior : exInterior.area = 1 / 8 := by
  rw [area_of_normSq exInterior (1/4) normSq_exInterior (by norm_num)]
  norm_num

lemma voxelizeVoxel_exInterior :
    voxelizeVoxel exInteriorVis ⟨0, 0, 0⟩ [exInterior] = ⟨1/8, redColor⟩ := by
  unfold voxelizeVoxel
  rw [clipLoop_exInterior]
  unfold accumulateColor
  simp only [List.foldl_cons, List.foldl_nil]
  rw [show exInteriorVis.tri = exInterior from rfl, area_exInterior]
  unfold wcMix WeightedColor.zero RGB.zero exInteriorVis
  simp only [WeightedColor.mk.injEq, RGB.mk.injEq]
  norm_num [redColor]

lemma voxelizeVoxelWith_claim_exInterior :
    voxelizeVoxelWith claimModeOf exInteriorVis ⟨0, 0, 0⟩ [exInterior] =
      WeightedColor.zero := by
  unfold voxelizeVoxelWith
  rw [clipClaim_exInterior]

/-- Claim C2, counterexample.  Under the specification's parenthesis
(DiscardLo when side = high, DiscardHi when side = low) the very first clip
of a triangle strictly inside the voxel would discard everything and return
weight zero, while the source's `voxelizeVoxel` keeps the triangle and
returns its nonzero weight. -/
theorem voxelizeVoxel_discard_claim_false :
    voxelizeVoxel exInteriorVis ⟨0, 0, 0⟩ [exInterior] ≠
      voxelizeVoxelWith claimModeOf exInteriorVis ⟨0, 0, 0⟩ [exInterior] := by
  rw [voxelizeVoxel_exInterior, voxelizeVoxelWith_claim_exInterior]
  intro h
  have hw := congrArg WeightedColor.weight h
  simp only [WeightedColor.zero] at hw
  norm_num at hw

/-- Claim C2 as amended (the discard selection reversed to what the source
does).  `voxelizeVoxel` performs, for each side and axis, a split at plane
`pos[axis] + side` discarding the far side, namely DiscardHi when
side = high and DiscardLo when side = low (`sourceModeOf`); and whenever the
working buffer becomes empty after a pass it returns `WeightedColor(0, 0)`. -/
theorem voxelizeVoxel_discard_selection (inputTriangle : VisualTriangle)
    (pos : P3) (preSplitBuffer : List TexturedTriangle) :
    voxelizeVoxel inputTriangle pos preSplitBuffer =
      voxelizeVoxelWith sourceModeOf inputTriangle pos preSplitBuffer ∧
    (clipLoopWith sourceModeOf pos clipSteps preSplitBuffer = none →
      voxelizeVoxel inputTriangle pos preSplitBuffer = WeightedColor.zero) := by
  constructor
  · rfl
  · intro h
    unfold voxelizeVoxel
    rw [show clipLoop pos preSplitBuffer = none from h]

/-- Witness for the amended C2: the clip of a triangle lying exactly in the
voxel's lower `z` face runs empty (the `z = pos.z` pass discards it), and
`voxelizeVoxel` returns `WeightedColor(0, 0)`. -/
theorem voxelizeVoxel_discard_selection_witness :
    voxelizeVoxel exPlanarZVis ⟨0, 0, 0⟩ [exPlanarZ] = WeightedColor.zero :=
  (voxelizeVoxel_discard_selection exPlanarZVis ⟨0, 0, 0⟩ [exPlanarZ]).2
    clipLoop_exPlanarZ

lemma voxelMin_exInterior : exInterior.voxelMin = ⟨0, 0, 0⟩ := by
  unfold TexturedTriangle.voxelMin TexturedTriangle.minCoord
  simp only [P3.mk.injEq]
  norm_num [min_def, exInterior, TexturedTriangle.vertex, V3.nth]

lemma voxelMax_exInterior : exInterior.voxelMax = ⟨1, 1, 1⟩ := by
  unfold TexturedTriangle.voxelMax TexturedTriangle.maxCoord
  simp only [P3.mk.injEq]
  refine ⟨?_, ?_, ?_⟩ <;>
    (rw [Int.ceil_eq_iff] <;>
      norm_num [max_def, exInterior, TexturedTriangle.vertex, V3.nth])

lemma voxelPositions_exInterior : voxelPositions exInterior = [⟨0, 0, 0⟩] := by
  unfold voxelPositions
  rw [voxelMin_exInterior, voxelMax_exInterior]
  rfl

lemma exInterior_normal : exInterior.normal = ⟨0, 0, 1/4⟩ := by
  norm_num [TexturedTriangle.normal, V3.cross, V3.sub3_def, exInterior, V3.mk.injEq]

lemma cull_exInterior_false :
    ¬ (|distance_point_plane (voxelCenter ⟨0, 0, 0⟩) (exInterior.vertex 0).toR
        (V3.normalize exInterior.normal)| > 2) := by
  rw [exInterior_normal]
  push_neg
  unfold distance_point_plane R3.dot V3.normalize voxelCenter V3.toR
  rw [show exInterior.vertex 0 = ⟨1/4, 1/4, 1/2⟩ from rfl]
  simp only [R3.subr_def]
  push_cast
  norm_num

lemma subTriangleStep_exInterior (strategy : ColorStrategy) (m : VoxelMap) :
    subTriangleStep strategy exInteriorVis exInterior m ⟨0, 0, 0⟩ =
      insertColor strategy m ⟨0, 0, 0⟩ ⟨1/8, redColor⟩ := by
  unfold subTriangleStep
  rw [if_neg cull_exInterior_false, voxelizeVoxel_exInterior]
  rw [if_neg (by norm_num : ¬((⟨1/8, redColor⟩ : WeightedColor).weight = 0))]

lemma voxelizeSubTriangleWith_exInterior (strategy : ColorStrategy) (m : VoxelMap) :
    voxelizeSubTriangleWith strategy exInteriorVis exInterior m =
      insertColor strategy m ⟨0, 0, 0⟩ ⟨1/8, redColor⟩ := by
  unfold voxelizeSubTriangleWith
  rw [voxelPositions_exInterior]
  simp only [List.foldl_cons, List.foldl_nil]
  exact subTriangleStep_exInterior strategy m

/-- A voxel map already holding a red sample of weight 1 at the origin
voxel. -/
noncomputable def incumbentMap : VoxelMap :=
  fun q => if q = ⟨0, 0, 0⟩ then some ⟨1, redColor⟩ else none

/-- Claim C3, counterexample.  With the MAX strategy configured, the insert
site of `voxelizeSubTriangle` still blends: on a voxel already holding
weight 1, the new 1/8-weight contribution yields stored weight 9/8, while
the claimed MAX insert would have kept the incumbent's weight 1. -/
theorem voxelizeSubTriangle_strategy_claim_false :
    voxelizeSubTriangle exInteriorVis exInterior incumbentMap ≠
      voxelizeSubTriangleWith ColorStrategy.MAX exInteriorVis exInterior
        incumbentMap := by
  intro h
  have hp := congrFun h ⟨0, 0, 0⟩
  rw [show voxelizeSubTriangle exInteriorVis exInterior incumbentMap =
      voxelizeSubTriangleWith ColorStrategy.BLEND exInteriorVis exInterior
        incumbentMap from rfl] at hp
  rw [voxelizeSubTriangleWith_exInterior, voxelizeSubTriangleWith_exInterior] at hp
  unfold insertColor incumbentMap combineColor wcMix at hp
  norm_num [WeightedColor.mk.injEq] at hp

/-- Claim C3 as amended.  `voxelizeSubTriangle` folds each per-voxel
contribution into the output map with `insertColor<ColorStrategy::BLEND>`
regardless of the configured strategy (the strategy does not reach this
insert site), and zero-weight contributions are never inserted: at any
voxel position whose clipped contribution has weight zero, the map is left
unchanged. -/
theorem voxelizeSubTriangle_blend_insert (inputTriangle : VisualTriangle)
    (subTriangle : TexturedTriangle) (out : VoxelMap) :
    voxelizeSubTriangle inputTriangle subTriangle out =
      voxelizeSubTriangleWith ColorStrategy.BLEND inputTriangle subTriangle out ∧
    ∀ pos, (voxelizeVoxel inputTriangle pos [subTriangle]).weight = 0 →
      voxelizeSubTriangle inputTriangle subTriangle out pos = out pos := by
  refine ⟨rfl, fun pos h => ?_⟩
  unfold voxelizeSubTriangle
  generalize voxelPositions subTriangle = ps
  induction ps generalizing out with
  | nil => rfl
  | cons q qs ih =>
    simp only [List.foldl_cons]
    rw [ih (subTriangleStep .BLEND inputTriangle subTriangle out q)]
    unfold subTriangleStep
    by_cases hc : |distance_point_plane (voxelCenter q)
        (subTriangle.vertex 0).toR (V3.normalize subTriangle.normal)| > 2
    · rw [if_pos hc]
    · rw [if_neg hc]
      by_cases hw : (voxelizeVoxel inputTriangle q [subTriangle]).weight = 0
      · rw [if_pos hw]
      · rw [if_neg hw]
        by_cases hpq : pos = q
        · subst hpq
          exact absurd h hw
        · unfold insertColor
          rw [if_neg hpq]

/-- Witness for the amended C3: a triangle clipped away entirely (weight
zero) leaves the output map untouched at that voxel. -/
theorem voxelizeSubTriangle_blend_insert_witness :
    voxelizeSubTriangle exPlanarZVis exPlanarZ incumbentMap ⟨0, 0, 0⟩ =
      incumbentMap ⟨0, 0, 0⟩ :=
  (voxelizeSubTriangle_blend_insert exPlanarZVis exPlanarZ incumbentMap).2
    ⟨0, 0, 0⟩ (by
      unfold voxelizeVoxel
      rw [clipLoop_exPlanarZ]
      rfl)

/-- A triangle at height `z = 1/2` overhanging the voxel at the origin on
the `x` axis (its clip against that voxel is a proper subset of it). -/
def exWide : TexturedTriangle :=
  ⟨⟨1/4, 1/4, 1/2⟩, ⟨7/4, 1/4, 1/2⟩, ⟨1/4, 3/4, 1/2⟩, zeroUv, zeroUv, zeroUv⟩

/-- First fragment surviving the clip of `exWide` against the origin voxel. -/
def exWideF1 : TexturedTriangle :=
  ⟨⟨1, 1/2, 1/2⟩, ⟨1/4, 3/4, 1/2⟩, ⟨1/4, 1/4, 1/2⟩, zeroUv, zeroUv, zeroUv⟩

/-- Second fragment surviving the clip of `exWide` against the origin voxel. -/
def exWideF2 : TexturedTriangle :=
  ⟨⟨1, 1/2, 1/2⟩, ⟨1, 1/4, 1/2⟩, ⟨1/4, 1/4, 1/2⟩, zeroUv, zeroUv, zeroUv⟩

/-- The wide triangle as a visual triangle of constant red color. -/
noncomputable def exWideVis : VisualTriangle := ⟨exWide, fun _ => redColor⟩

lemma clipLoop_exWide : clipLoop ⟨0, 0, 0⟩ [exWide] = some [exWideF1, exWideF2] := by
  have h1 : clipPass .DISCARD_LO 0 0 [exWide] = [exWide] := by
    norm_num [clipPass, splitKept, splitEvents, planarCount, loCount,
      isPlanarVertex, isLoVertex, eqPlane, isZeroQ, EPSILON, b2n, abs_lt, exWide,
      TexturedTriangle.vertex, V3.nth, List.filterMap_cons, List.filterMap_nil]
  have h2 : clipPass .DISCARD_LO 1 0 [exWide] = [exWide] := by
    norm_num [clipPass, splitKept, splitEvents, planarCount, loCount,
      isPlanarVertex, isLoVertex, eqPlane, isZeroQ, EPSILON, b2n, abs_lt, exWide,
      TexturedTriangle.vertex, V3.nth, List.filterMap_cons, List.filterMap_nil]
  have h3 : clipPass .DISCARD_LO 2 0 [exWide] = [exWide] := by
    norm_num [clipPass, splitKept, splitEvents, planarCount, loCount,
      isPlanarVertex, isLoVertex, eqPlane, isZeroQ, EPSILON, b2n, abs_lt, exWide,
      TexturedTriangle.vertex, V3.nth, List.filterMap_cons, List.filterMap_nil]
  have h4 : clipPass .DISCARD_HI 0 1 [exWide] = [exWideF1, exWideF2] := by
    norm_num [clipPass, splitKept, splitEvents, planarCount, loCount,
      isPlanarVertex, isLoVertex, regularSplitEvents, intersect_ray_axisPlane,
      nxt, qmix, V3.vmix, V2.tmix, V3.sub3_def, V2.sub2_def, eqPlane, isZeroQ,
      EPSILON, b2n, abs_lt, exWide, exWideF1, exWideF2, zeroUv, V2.mk.injEq,
      TexturedTriangle.vertex, TexturedTriangle.texture, V3.nth,
      List.filterMap_cons, List.filterMap_nil]
  have h5 : clipPass .DISCARD_HI 1 1 [exWideF1, exWideF2] = [exWideF1, exWideF2] := by
    norm_num [clipPass, splitKept, splitEvents, planarCount, loCount,
      isPlanarVertex, isLoVertex, eqPlane, isZeroQ, EPSILON, b2n, abs_lt,
      exWideF1, exWideF2, TexturedTriangle.vertex, V3.nth,
      List.filterMap_cons, List.filterMap_nil]
  have h6 : clipPass .DISCARD_HI 2 1 [exWideF1, exWideF2] = [exWideF1, exWideF2] := by
    norm_num [clipPass, splitKept, splitEvents, planarCount, loCount,
      isPlanarVertex, isLoVertex, eqPlane, isZeroQ, EPSILON, b2n, abs_lt,
      exWideF1, exWideF2, TexturedTriangle.vertex, V3.nth,
      List.filterMap_cons, List.filterMap_nil]
  show clipLoopWith sourceModeOf ⟨0, 0, 0⟩ clipSteps [exWide]
    = some [exWideF1, exWideF2]
  rw [clipSteps]
  rw [clipLoopWith_step _ _ _ _ _ _ _ _ (by simpa [sourceModeOf, P3.nth] using h1)]
  rw [clipLoopWith_step _ _ _ _ _ _ _ _ (by simpa [sourceModeOf, P3.nth] using h2)]
  rw [clipLoopWith_step _ _ _ _ _ _ _ _ (by simpa [sourceModeOf, P3.nth] using h3)]
  rw [clipLoopWith_step _ _ _ _ _ _ _ _ (by simpa [sourceModeOf, P3.nth] using h4)]
  rw [clipLoopWith_step _ _ _ _ _ _ _ _ (by simpa [sourceModeOf, P3.nth] using h5)]
  rw [clipLoopWith_step _ _ _ _ _ _ _ _ (by simpa [sourceModeOf, P3.nth] using h6)]
  exact clipLoopWith_nil _ _ _

lemma area_exWide : exWide.area = 3 / 8 := by
  rw [area_of_normSq exWide (3/4) (by
    norm_num [TexturedTriangle.normal, V3.cross, V3.sub3_def, V3.normSq, exWide])
    (by norm_num)]
  norm_num

lemma area_exWideF1 : exWideF1.area = 3 / 16 := by
  rw [area_of_normSq exWideF1 (3/8) (by
    norm_num [TexturedTriangle.normal, V3.cross, V3.sub3_def, V3.normSq, exWideF1])
    (by norm_num)]
  norm_num

lemma area_exWideF2 : exWideF2.area = 3 / 32 := by
  rw [area_of_normSq exWideF2 (3/16) (by
    norm_num [TexturedTriangle.normal, V3.cross, V3.sub3_def, V3.normSq, exWideF2])
    (by norm_num)]
  norm_num

/-- Claim C1, failing-input evaluation.  The color accumulation of
`voxelizeVoxel` weighs every surviving fragment by `inputTriangle.area()`
(the area of the whole input triangle), so for the wide triangle clipped to
two fragments the returned weight is `2 * area(input) = 3/4`, while the sum
of the areas of the surviving fragments - the clipped area the claim
prescribes - is `9/32`. -/
theorem voxelizeVoxel_weight_not_fragment_area_sum :
    (voxelizeVoxel exWideVis ⟨0, 0, 0⟩ [exWide]).weight = 3 / 4 ∧
    ((survivingFragments ⟨0, 0, 0⟩ [exWide]).map TexturedTriangle.area).sum = 9 / 32 ∧
    (voxelizeVoxel exWideVis ⟨0, 0, 0⟩ [exWide]).weight ≠
      ((survivingFragments ⟨0, 0, 0⟩ [exWide]).map TexturedTriangle.area).sum := by
  have hw : (voxelizeVoxel exWideVis ⟨0, 0, 0⟩ [exWide]).weight = 3 / 4 := by
    unfold voxelizeVoxel
    rw [clipLoop_exWide]
    unfold accumulateColor
    simp only [List.foldl_cons, List.foldl_nil]
    rw [show exWideVis.tri = exWide from rfl, area_exWide]
    unfold wcMix WeightedColor.zero
    norm_num
  have hs : ((survivingFragments ⟨0, 0, 0⟩ [exWide]).map
      TexturedTriangle.area).sum = 9 / 32 := by
    unfold survivingFragments
    rw [clipLoop_exWide]
    simp only [Option.getD_some, List.map_cons, List.map_nil, List.sum_cons,
      List.sum_nil, area_exWideF1, area_exWideF2]
    norm_num
  refine ⟨hw, hs, ?_⟩
  rw [hw, hs]
  norm_num

/-- The diagonality as the claim words it: the absolute dot product of the
triangle's unit normal (no componentwise absolute value) with
`(1/sqrt 3, 1/sqrt 3, 1/sqrt 3)`. -/
noncomputable def claimDiagonality (t : TexturedTriangle) : ℝ :=
  |R3.dot (V3.normalize t.normal)
    ⟨(Real.sqrt 3)⁻¹, (Real.sqrt 3)⁻¹, (Real.sqrt 3)⁻¹⟩|

/-- The claim's diagonality normalised to `[0, 1]` by
`(d - 1/sqrt 3) / (1 - 1/sqrt 3)`. -/
noncomputable def claimDiagonality01 (t : TexturedTriangle) : ℝ :=
  (claimDiagonality t - (Real.sqrt 3)⁻¹) / (1 - (Real.sqrt 3)⁻¹)

lemma rnorm_cc0 (c : ℚ) (hc : 0 ≤ c) :
    (V3.mk c c 0).rnorm = (c : ℝ) * Real.sqrt 2 := by
  unfold V3.rnorm
  rw [show ((V3.mk c c 0).normSq : ℝ) = (c : ℝ) ^ 2 * 2 by
    unfold V3.normSq
    push_cast
    ring]
  rw [Real.sqrt_mul (sq_nonneg _), Real.sqrt_sq (by exact_mod_cast hc)]

lemma sqrtThird_lb : (0.577 : ℝ) ≤ ((sqrtThird : ℚ) : ℝ) := by
  norm_num [sqrtThird]

lemma sqrtThird_ub : ((sqrtThird : ℚ) : ℝ) ≤ 0.578 := by
  norm_num [sqrtThird]

lemma sqrt_two_lb : (1.414 : ℝ) ≤ Real.sqrt 2 := by
  have h := Real.sqrt_le_sqrt (by norm_num : (1.999396 : ℝ) ≤ 2)
  rw [show (1.999396 : ℝ) = 1.414 ^ 2 by norm_num,
    Real.sqrt_sq (by norm_num : (0:ℝ) ≤ 1.414)] at h
  exact h

lemma diagonality_cc0 (t : TexturedTriangle) (c : ℚ) (hc : 0 < c)
    (habs : t.normal.vabs = ⟨c, c, 0⟩) :
    diagonality t = ((sqrtThird : ℚ) : ℝ) * Real.sqrt 2 := by
  unfold diagonality R3.dot V3.normalize V3.toR diagonal3
  rw [habs, rnorm_cc0 c hc.le]
  have hc0 : (c : ℝ) ≠ 0 := by exact_mod_cast hc.ne'
  have hs2 : Real.sqrt 2 ≠ 0 := (Real.sqrt_pos.2 (by norm_num)).ne'
  have h2 : Real.sqrt 2 * Real.sqrt 2 = 2 := Real.mul_self_sqrt (by norm_num)
  field_simp
  linear_combination (-(c : ℝ) * ((sqrtThird : ℚ) : ℝ)) * h2

/-- A triangle whose normal's componentwise absolute value is `(c, c, 0)`
has code diagonality01 at least one half (the source does not return it
early). -/
lemma diagonality01_cc0_not_lt (t : TexturedTriangle) (c : ℚ) (hc : 0 < c)
    (habs : t.normal.vabs = ⟨c, c, 0⟩) : ¬ (diagonality01 t < 1 / 2) := by
  unfold diagonality01
  rw [diagonality_cc0 t c hc habs, not_lt]
  have hlb := sqrtThird_lb
  have hub := sqrtThird_ub
  have hsq := sqrt_two_lb
  have hden : (0:ℝ) < 1 - ((sqrtThird : ℚ) : ℝ) := by linarith
  rw [le_div_iff hden]
  have hmul : (1.414 : ℝ) * ((sqrtThird : ℚ) : ℝ) ≤
      Real.sqrt 2 * ((sqrtThird : ℚ) : ℝ) :=
    mul_le_mul_of_nonneg_right hsq (by linarith)
  nlinarith

/-- A large diagonal triangle whose normal has mixed-sign components
`(1600, -1600, 0)`. -/
def exDiagBig : TexturedTriangle :=
  ⟨⟨0, 0, 0⟩, ⟨40, 40, 0⟩, ⟨0, 0, 40⟩, zeroUv, zeroUv, zeroUv⟩

lemma exDiagBig_normal : exDiagBig.normal = ⟨1600, -1600, 0⟩ := by
  norm_num [TexturedTriangle.normal, V3.cross, V3.sub3_def, exDiagBig, V3.mk.injEq]

lemma exDiagBig_abs_normal : exDiagBig.normal.vabs = ⟨1600, 1600, 0⟩ := by
  rw [exDiagBig_normal]
  unfold V3.vabs
  rw [V3.mk.injEq]
  refine ⟨abs_of_nonneg (by norm_num), ?_, abs_zero⟩
  rw [show |(-1600 : ℚ)| = |(1600 : ℚ)| by rw [abs_neg]]
  exact abs_of_nonneg (by norm_num)

lemma exDiagBig_volume : exDiagBig.intVolume = 64000 := by
  have s0 : exDiagBig.voxelSize 0 = 40 := by
    unfold TexturedTriangle.voxelSize
    rw [voxelMax_nth, voxelMin_nth,
      show ⌈exDiagBig.maxCoord 0⌉ = 40 by
        rw [Int.ceil_eq_iff] <;>
          norm_num [TexturedTriangle.maxCoord, max_def, exDiagBig,
            TexturedTriangle.vertex, V3.nth],
      show ⌊exDiagBig.minCoord 0⌋ = 0 by
        norm_num [TexturedTriangle.minCoord, min_def, exDiagBig,
          TexturedTriangle.vertex, V3.nth]]
    rfl
  have s1 : exDiagBig.voxelSize 1 = 40 := by
    unfold TexturedTriangle.voxelSize
    rw [voxelMax_nth, voxelMin_nth,
      show ⌈exDiagBig.maxCoord 1⌉ = 40 by
        rw [Int.ceil_eq_iff] <;>
          norm_num [TexturedTriangle.maxCoord, max_def, exDiagBig,
            TexturedTriangle.vertex, V3.nth],
      show ⌊exDiagBig.minCoord 1⌋ = 0 by
        norm_num [TexturedTriangle.minCoord, min_def, exDiagBig,
          TexturedTriangle.vertex, V3.nth]]
    rfl
  have s2 : exDiagBig.voxelSize 2 = 40 := by
    unfold TexturedTriangle.voxelSize
    rw [voxelMax_nth, voxelMin_nth,
      show ⌈exDiagBig.maxCoord 2⌉ = 40 by
        rw [Int.ceil_eq_iff] <;>
          norm_num [TexturedTriangle.maxCoord, max_def, exDiagBig,
            TexturedTriangle.vertex, V3.nth],
      show ⌊exDiagBig.minCoord 2⌋ = 0 by
        norm_num [TexturedTriangle.minCoord, min_def, exDiagBig,
          TexturedTriangle.vertex, V3.nth]]
    rfl
  unfold TexturedTriangle.intVolume
  rw [s0, s1, s2]

lemma subLoopFuel_length (n : ℕ) :
    ∀ (done todo r : List TexturedTriangle), subLoopFuel n done todo = some r →
      done.length + todo.length ≤ r.length := by
  induction n with
  | zero => intro done todo r h; exact absurd h (by simp [subLoopFuel])
  | succ n ih =>
    intro done todo r h
    match todo with
    | [] =>
      rw [subLoopFuel] at h
      rw [← Option.some_injective _ h]
      simp
    | t :: rest =>
      rw [subLoopFuel] at h
      by_cases hv : t.intVolume < 512
      · rw [if_pos hv] at h
        have := ih _ _ _ h
        simp at this ⊢
        omega
      · rw [if_neg hv] at h
        have := ih _ _ _ h
        simp at this ⊢
        omega

lemma subLoopFuel_volumes (n : ℕ) :
    ∀ (done todo r : List TexturedTriangle), subLoopFuel n done todo = some r →
      (∀ u ∈ done, u.intVolume < 512) → ∀ u ∈ r, u.intVolume < 512 := by
  induction n with
  | zero => intro done todo r h; exact absurd h (by simp [subLoopFuel])
  | succ n ih =>
    intro done todo r h hdone
    match todo with
    | [] =>
      rw [subLoopFuel] at h
      rw [← Option.some_injective _ h]
      exact hdone
    | t :: rest =>
      rw [subLoopFuel] at h
      by_cases hv : t.intVolume < 512
      · rw [if_pos hv] at h
        refine ih _ _ _ h ?_
        intro u hu
        rcases List.mem_append.1 hu with hu | hu
        · exact hdone u hu
        · rw [List.mem_singleton.1 hu]
          exact hv
      · rw [if_neg hv] at h
        exact ih _ _ _ h hdone

/-- Claim C4, counterexample.  A triangle with normal `(1600, -1600, 0)`
has claim diagonality `|n_hat . (1/sqrt 3, ...)| = 0`, hence claim
diagonality01 below one half, yet `subdivideLargeVolumeTriangles` does not
return the singleton: the code takes the absolute value of the normal's
components before normalising, computes diagonality01 above one half, and
subdivides (the triangle's integer bounding-box volume is 64000). -/
theorem subdivide_diagonality_claim_false :
    claimDiagonality01 exDiagBig < 1 / 2 ∧
    subdivideLargeVolumeTriangles exDiagBig ≠ [exDiagBig] := by
  constructor
  · unfold claimDiagonality01 claimDiagonality
    have hdot : R3.dot (V3.normalize exDiagBig.normal)
        ⟨(Real.sqrt 3)⁻¹, (Real.sqrt 3)⁻¹, (Real.sqrt 3)⁻¹⟩ = 0 := by
      unfold R3.dot V3.normalize
      rw [exDiagBig_normal]
      push_cast
      ring
    rw [hdot, abs_zero]
    have h3 : (1 : ℝ) < Real.sqrt 3 := by
      rw [show (1:ℝ) = Real.sqrt 1 from Real.sqrt_one.symm]
      exact Real.sqrt_lt_sqrt (by norm_num) (by norm_num)
    have hipos : (0 : ℝ) < (Real.sqrt 3)⁻¹ := by positivity
    have hilt : (Real.sqrt 3)⁻¹ < 1 := by
      rw [inv_lt_one_iff₀]
      right
      exact h3
    have : (0 - (Real.sqrt 3)⁻¹) / (1 - (Real.sqrt 3)⁻¹) < 0 :=
      div_neg_of_neg_of_pos (by linarith) (by linarith)
    linarith
  · have hd : ¬ (diagonality01 exDiagBig < 1 / 2) :=
      diagonality01_cc0_not_lt exDiagBig 1600 (by norm_num) exDiagBig_abs_normal
    unfold subdivideLargeVolumeTriangles
    rw [if_neg hd]
    obtain ⟨n, hn⟩ := subLoop_spec [] [exDiagBig]
    match n, hn with
    | 0, hn => exact absurd hn (by simp [subLoopFuel])
    | m + 1, hn =>
      rw [subLoopFuel, if_neg (by rw [exDiagBig_volume]; omega)] at hn
      have hlen := subLoopFuel_length m _ _ _ hn
      intro heq
      rw [heq] at hlen
      simp at hlen

/-- Claim C4 as amended.  The early return of
`subdivideLargeVolumeTriangles` is governed by the code's diagonality -
computed from `normalize(abs(normal))`, the componentwise absolute value
taken before normalising, not from the unit normal itself: whenever that
diagonality01 is below one half the function returns exactly the singleton
of the unmodified input triangle. -/
theorem subdivide_early_return (t : TexturedTriangle)
    (h : diagonality01 t < 1 / 2) :
    subdivideLargeVolumeTriangles t = [t] := by
  unfold subdivideLargeVolumeTriangles
  rw [if_pos h]

/-- An axis-aligned triangle (normal `(0, 0, 1)`), below the diagonality
threshold. -/
def exAxisAligned : TexturedTriangle :=
  ⟨⟨0, 0, 0⟩, ⟨1, 0, 0⟩, ⟨0, 1, 0⟩, zeroUv, zeroUv, zeroUv⟩

lemma exAxisAligned_diagonality :
    diagonality exAxisAligned = ((sqrtThird : ℚ) : ℝ) := by
  unfold diagonality R3.dot V3.normalize V3.toR diagonal3
  have habs : exAxisAligned.normal.vabs = ⟨0, 0, 1⟩ := by
    norm_num [TexturedTriangle.normal, V3.cross, V3.sub3_def, V3.vabs,
      exAxisAligned, V3.mk.injEq]
  rw [habs]
  have hr : (V3.mk 0 0 1).rnorm = 1 := by
    unfold V3.rnorm
    rw [show ((V3.mk 0 0 1).normSq : ℝ) = 1 by unfold V3.normSq; push_cast; ring]
    exact Real.sqrt_one
  rw [hr]
  push_cast
  ring

lemma exAxisAligned_diagonality01 : diagonality01 exAxisAligned < 1 / 2 := by
  unfold diagonality01
  rw [exAxisAligned_diagonality]
  simp

/-- Witness for the amended C4: the axis-aligned triangle is below the
threshold and is returned unmodified. -/
theorem subdivide_early_return_witness :
    subdivideLargeVolumeTriangles exAxisAligned = [exAxisAligned] :=
  subdivide_early_return exAxisAligned exAxisAligned_diagonality01

/-- Claim C8 (confirmed).  For a triangle with a non-degenerate voxel
bounding box that is not near-axis-aligned (code diagonality01 at least one
half, so the work loop actually runs), the work loop of
`subdivideLargeVolumeTriangles` terminates - some finite iteration bound
reproduces its result - and every triangle of the returned vector has
integer bounding-box volume below 512. -/
theorem subdivide_terminates_and_bounded (t : TexturedTriangle)
    (hnd : t.voxelMin ≠ t.voxelMax) (hdiag : ¬ (diagonality01 t < 1 / 2)) :
    (∃ n, subLoopFuel n [] [t] = some (subdivideLargeVolumeTriangles t)) ∧
    ∀ u ∈ subdivideLargeVolumeTriangles t, u.intVolume < 512 := by
  unfold subdivideLargeVolumeTriangles
  rw [if_neg hdiag]
  refine ⟨subLoop_spec [] [t], ?_⟩
  obtain ⟨n, hn⟩ := subLoop_spec [] [t]
  exact subLoopFuel_volumes n [] [t] _ hn (by simp)

/-- A small diagonal triangle (normal `(1, -1, 0)`) whose voxel bounding box
is the unit cube. -/
def exDiagSmall : TexturedTriangle :=
  ⟨⟨0, 0, 0⟩, ⟨1, 1, 0⟩, ⟨0, 0, 1⟩, zeroUv, zeroUv, zeroUv⟩

lemma exDiagSmall_abs_normal : exDiagSmall.normal.vabs = ⟨1, 1, 0⟩ := by
  have hn : exDiagSmall.normal = ⟨1, -1, 0⟩ := by
    norm_num [TexturedTriangle.normal, V3.cross, V3.sub3_def, exDiagSmall,
      V3.mk.injEq]
  rw [hn]
  unfold V3.vabs
  rw [V3.mk.injEq]
  refine ⟨abs_of_nonneg (by norm_num), ?_, abs_zero⟩
  rw [show |(-1 : ℚ)| = |(1 : ℚ)| by rw [abs_neg]]
  exact abs_of_nonneg (by norm_num)

lemma exDiagSmall_voxelMin : exDiagSmall.voxelMin = ⟨0, 0, 0⟩ := by
  unfold TexturedTriangle.voxelMin TexturedTriangle.minCoord
  simp only [P3.mk.injEq]
  norm_num [min_def, exDiagSmall, TexturedTriangle.vertex, V3.nth]

lemma exDiagSmall_voxelMax : exDiagSmall.voxelMax = ⟨1, 1, 1⟩ := by
  unfold TexturedTriangle.voxelMax TexturedTriangle.maxCoord
  simp only [P3.mk.injEq]
  refine ⟨?_, ?_, ?_⟩ <;>
    (rw [Int.ceil_eq_iff] <;>
      norm_num [max_def, exDiagSmall, TexturedTriangle.vertex, V3.nth])

/-- Witness for C8 at the small diagonal triangle. -/
theorem subdivide_terminates_and_bounded_witness :
    (∃ n, subLoopFuel n [] [exDiagSmall] =
      some (subdivideLargeVolumeTriangles exDiagSmall)) ∧
    ∀ u ∈ subdivideLargeVolumeTriangles exDiagSmall, u.intVolume < 512 :=
  subdivide_terminates_and_bounded exDiagSmall
    (by rw [exDiagSmall_voxelMin, exDiagSmall_voxelMax]; simp)
    (diagonality01_cc0_not_lt exDiagSmall 1 (by norm_num) exDiagSmall_abs_normal)

/-- The cross product defining a vertex triple's normal,
`cross(B - A, C - A)`. -/
def triNormal (A B C : V3) : V3 := V3.cross (B - A) (C - A)

/-- Scalar multiple of a rational vector. -/
def V3.qsmul (c : ℚ) (v : V3) : V3 := ⟨c * v.x, c * v.y, c * v.z⟩

/-- Unsigned area of a vertex triple. -/
noncomputable def vArea (A B C : V3) : ℝ := (triNormal A B C).rnorm / 2

lemma normal_mk (A B C : V3) (ta tb tc : V2) :
    (TexturedTriangle.mk A B C ta tb tc).normal = triNormal A B C := rfl

lemma area_mk (A B C : V3) (ta tb tc : V2) :
    (TexturedTriangle.mk A B C ta tb tc).area = vArea A B C := rfl

lemma area_as_vArea (t : TexturedTriangle) : t.area = vArea t.v0 t.v1 t.v2 := rfl

lemma triNormal_cyclic (A B C : V3) : triNormal B C A = triNormal A B C := by
  simp only [triNormal, V3.cross, V3.sub3_def, V3.mk.injEq]
  refine ⟨by ring, by ring, by ring⟩

lemma vArea_cyclic (A B C : V3) : vArea B C A = vArea A B C := by
  unfold vArea
  rw [triNormal_cyclic]

/-- The parent's area read off at any cyclic rotation of its vertices. -/
lemma vArea_rot (t : TexturedTriangle) (i : Fin 3) :
    vArea (t.vertex i) (t.vertex (nxt i)) (t.vertex (nxt (nxt i))) = t.area := by
  fin_cases i
  · exact (area_as_vArea t).symm
  · show vArea t.v1 t.v2 t.v0 = t.area
    rw [area_as_vArea t]
    exact vArea_cyclic t.v0 t.v1 t.v2
  · show vArea t.v2 t.v0 t.v1 = t.area
    rw [area_as_vArea t]
    exact (vArea_cyclic t.v1 t.v2 t.v0).trans (vArea_cyclic t.v0 t.v1 t.v2)

lemma normSq_qsmul (c : ℚ) (v : V3) :
    (V3.qsmul c v).normSq = c ^ 2 * v.normSq := by
  simp only [V3.qsmul, V3.normSq]
  ring

lemma rnorm_qsmul (c : ℚ) (v : V3) :
    (V3.qsmul c v).rnorm = |(c : ℝ)| * v.rnorm := by
  unfold V3.rnorm
  rw [normSq_qsmul]
  push_cast
  rw [Real.sqrt_mul (sq_nonneg _), Real.sqrt_sq_eq_abs]

lemma triNormal_mix_last (P A B : V3) (s : ℚ) :
    triNormal P A (V3.vmix A B s) = V3.qsmul s (triNormal P A B) := by
  simp only [triNormal, V3.cross, V3.sub3_def, V3.vmix, qmix, V3.qsmul,
    V3.mk.injEq]
  refine ⟨by ring, by ring, by ring⟩

lemma triNormal_mix_mid (P A B : V3) (s : ℚ) :
    triNormal P (V3.vmix A B s) B = V3.qsmul (1 - s) (triNormal P A B) := by
  simp only [triNormal, V3.cross, V3.sub3_def, V3.vmix, qmix, V3.qsmul,
    V3.mk.injEq]
  refine ⟨by ring, by ring, by ring⟩

lemma triNormal_iso (I A B : V3) (s0 s1 : ℚ) :
    triNormal I (V3.vmix I A s0) (V3.vmix I B s1) =
      V3.qsmul (s0 * s1) (triNormal I A B) := by
  simp only [triNormal, V3.cross, V3.sub3_def, V3.vmix, qmix, V3.qsmul,
    V3.mk.injEq]
  refine ⟨by ring, by ring, by ring⟩

lemma triNormal_quad0 (I A B : V3) (s0 : ℚ) :
    triNormal (V3.vmix I A s0) A B = V3.qsmul (1 - s0) (triNormal I A B) := by
  simp only [triNormal, V3.cross, V3.sub3_def, V3.vmix, qmix, V3.qsmul,
    V3.mk.injEq]
  refine ⟨by ring, by ring, by ring⟩

lemma triNormal_quad1 (I A B : V3) (s0 s1 : ℚ) :
    triNormal (V3.vmix I A s0) (V3.vmix I B s1) B =
      V3.qsmul (s0 * (s1 - 1)) (triNormal I A B) := by
  simp only [triNormal, V3.cross, V3.sub3_def, V3.vmix, qmix, V3.qsmul,
    V3.mk.injEq]
  refine ⟨by ring, by ring, by ring⟩

lemma vArea_qsmul (A B C : V3) (c : ℚ) (u0 u1 u2 : V3)
    (h : triNormal u0 u1 u2 = V3.qsmul c (triNormal A B C)) :
    vArea u0 u1 u2 = |(c : ℝ)| * vArea A B C := by
  unfold vArea
  rw [h, rnorm_qsmul]
  ring

/-- Conservation for the one-planar-vertex split: the two pieces sharing the
planar vertex and the intersection point tile the triangle. -/
lemma planar_pieces_area (P A B : V3) (s : ℚ) (h0 : 0 ≤ s) (h1 : s ≤ 1) :
    vArea P A (V3.vmix A B s) + vArea P (V3.vmix A B s) B = vArea P A B := by
  rw [vArea_qsmul P A B s _ _ _ (triNormal_mix_last P A B s),
    vArea_qsmul P A B (1 - s) _ _ _ (triNormal_mix_mid P A B s),
    abs_of_nonneg (by exact_mod_cast h0 : (0:ℝ) ≤ (s : ℝ)),
    abs_of_nonneg (by
      rw [show ((1 - s : ℚ) : ℝ) = 1 - (s : ℝ) by push_cast; ring] at *
      exact sub_nonneg.2 (by exact_mod_cast h1))]
  push_cast
  ring

/-- Conservation for the regular split: the isolated triangle and the two
quad pieces tile the triangle. -/
lemma regular_pieces_area (I A B : V3) (s0 s1 : ℚ)
    (h00 : 0 ≤ s0) (h01 : s0 ≤ 1) (h10 : 0 ≤ s1) (h11 : s1 ≤ 1) :
    vArea I (V3.vmix I A s0) (V3.vmix I B s1) +
      vArea (V3.vmix I A s0) A B +
      vArea (V3.vmix I A s0) (V3.vmix I B s1) B = vArea I A B := by
  rw [vArea_qsmul I A B (s0 * s1) _ _ _ (triNormal_iso I A B s0 s1),
    vArea_qsmul I A B (1 - s0) _ _ _ (triNormal_quad0 I A B s0),
    vArea_qsmul I A B (s0 * (s1 - 1)) _ _ _ (triNormal_quad1 I A B s0 s1)]
  have e0 : |((s0 * s1 : ℚ) : ℝ)| = ((s0 * s1 : ℚ) : ℝ) :=
    abs_of_nonneg (by exact_mod_cast mul_nonneg h00 h10)
  have e1 : |((1 - s0 : ℚ) : ℝ)| = ((1 - s0 : ℚ) : ℝ) :=
    abs_of_nonneg (by exact_mod_cast sub_nonneg.2 h01)
  have e2 : |((s0 * (s1 - 1) : ℚ) : ℝ)| = ((s0 * (1 - s1) : ℚ) : ℝ) := by
    rw [show (s0 * (s1 - 1) : ℚ) = -(s0 * (1 - s1)) by ring]
    push_cast
    rw [abs_neg]
    exact abs_of_nonneg (by
      have : (0:ℚ) ≤ s0 * (1 - s1) := mul_nonneg h00 (sub_nonneg.2 h11)
      exact_mod_cast this)
  rw [e0, e1, e2]
  push_cast
  ring

lemma vmix_nth (a b : V3) (s : ℚ) (i : Fin 3) :
    (V3.vmix a b s).nth i = qmix (a.nth i) (b.nth i) s := by
  fin_cases i <;> rfl

lemma V3.nth_sub (a b : V3) (i : Fin 3) : (a - b).nth i = a.nth i - b.nth i := by
  rw [V3.sub3_def]
  fin_cases i <;> rfl

lemma eps_pos : (0 : ℚ) < EPSILON := by norm_num [EPSILON]

/-- A non-planar vertex on the lo side is at least `EPSILON` below the
plane. -/
lemma lo_sep (x : ℚ) (k : ℤ) (hlo : x ≤ (k : ℚ)) (hnp : ¬ eqPlane x k) :
    x ≤ (k : ℚ) - EPSILON := by
  rw [eqPlane, isZeroQ, not_lt, abs_sub_comm, abs_of_nonneg (by linarith)] at hnp
  linarith

/-- A non-planar vertex on the hi side is at least `EPSILON` above the
plane. -/
lemma hi_sep (x : ℚ) (k : ℤ) (hhi : ¬ x ≤ (k : ℚ)) (hnp : ¬ eqPlane x k) :
    (k : ℚ) + EPSILON ≤ x := by
  push_neg at hhi
  rw [eqPlane, isZeroQ, not_lt, abs_of_nonneg (by linarith)] at hnp
  linarith

/-- The intersection parameter for an edge from a non-planar lo vertex to a
hi vertex: it lies in `[0, 1]` and the interpolated coordinate is exactly
the plane. -/
lemma intersect_bounds_lo (I O : V3) (axis : Fin 3) (k : ℤ)
    (hIlo : I.nth axis ≤ (k : ℚ) - EPSILON) (hOhi : ¬ O.nth axis ≤ (k : ℚ)) :
    0 ≤ intersect_ray_axisPlane I (O - I) axis k ∧
      intersect_ray_axisPlane I (O - I) axis k ≤ 1 ∧
      (V3.vmix I O (intersect_ray_axisPlane I (O - I) axis k)).nth axis = k := by
  push_neg at hOhi
  have heps := eps_pos
  have hd : -(O - I).nth axis < -EPSILON := by
    rw [V3.nth_sub]
    linarith
  have hnz : ¬ isZeroQ (-(O - I).nth axis) := by
    rw [isZeroQ, not_lt, abs_of_nonpos (by linarith)]
    linarith
  have hs : intersect_ray_axisPlane I (O - I) axis k =
      (I.nth axis - (k : ℚ)) / (-(O - I).nth axis) := by
    rw [intersect_ray_axisPlane, if_neg hnz]
  have hdneg : -(O - I).nth axis < 0 := by linarith
  refine ⟨?_, ?_, ?_⟩
  · rw [hs, ← neg_div_neg_eq]
    exact div_nonneg (by linarith) (by linarith)
  · rw [hs, div_le_iff_of_neg hdneg, one_mul, V3.nth_sub]
    linarith
  · rw [hs, vmix_nth, qmix]
    have hrw : -(O - I).nth axis = I.nth axis - O.nth axis := by
      rw [V3.nth_sub]
      ring
    rw [hrw]
    have hne : I.nth axis - O.nth axis ≠ 0 := by linarith
    field_simp
    ring

/-- The intersection parameter for an edge from a non-planar hi vertex to a
lo vertex: it lies in `[0, 1]` and the interpolated coordinate is exactly
the plane. -/
lemma intersect_bounds_hi (I O : V3) (axis : Fin 3) (k : ℤ)
    (hIhi : (k : ℚ) + EPSILON ≤ I.nth axis) (hOlo : O.nth axis ≤ (k : ℚ)) :
    0 ≤ intersect_ray_axisPlane I (O - I) axis k ∧
      intersect_ray_axisPlane I (O - I) axis k ≤ 1 ∧
      (V3.vmix I O (intersect_ray_axisPlane I (O - I) axis k)).nth axis = k := by
  have heps := eps_pos
  have hd : EPSILON ≤ -(O - I).nth axis := by
    rw [V3.nth_sub]
    linarith
  have hnz : ¬ isZeroQ (-(O - I).nth axis) := by
    rw [isZeroQ, not_lt, abs_of_nonneg (by linarith)]
    linarith
  have hs : intersect_ray_axisPlane I (O - I) axis k =
      (I.nth axis - (k : ℚ)) / (-(O - I).nth axis) := by
    rw [intersect_ray_axisPlane, if_neg hnz]
  have hdpos : 0 < -(O - I).nth axis := by linarith
  refine ⟨?_, ?_, ?_⟩
  · rw [hs]
    exact div_nonneg (by linarith) (by linarith)
  · rw [hs, div_le_one hdpos, V3.nth_sub]
    linarith
  · rw [hs, vmix_nth, qmix]
    have hrw : -(O - I).nth axis = I.nth axis - O.nth axis := by
      rw [V3.nth_sub]
      ring
    rw [hrw]
    have hne : I.nth axis - O.nth axis ≠ 0 := by linarith
    field_simp
    ring

/-- The side discipline of one push event: a `lo` push only carries vertices
at most `EPSILON` above the plane, a `hi` push only vertices at most
`EPSILON` below it. -/
def eventSideOk (axis : Fin 3) (plane : ℤ) (e : Bool × TexturedTriangle) : Prop :=
  (e.1 = true → ∀ i, ((e.2.vertex i).nth axis ≤ (plane : ℚ) + EPSILON)) ∧
  (e.1 = false → ∀ i, ((plane : ℚ) - EPSILON ≤ (e.2.vertex i).nth axis))

/-- The one-planar-vertex split conserves area exactly and pushes each piece
to a side all of whose vertices respect the `EPSILON` side bound. -/
lemma planarSplitEvents_props (t : TexturedTriangle) (axis : Fin 3) (plane : ℤ)
    (pIdx : Fin 3)
    (hp : isPlanarVertex t axis plane pIdx)
    (hn0 : ¬ isPlanarVertex t axis plane (nxt pIdx))
    (hside : (isLoVertex t axis plane (nxt pIdx) ∧
        ¬ isLoVertex t axis plane (nxt (nxt pIdx))) ∨
      (¬ isLoVertex t axis plane (nxt pIdx) ∧
        isLoVertex t axis plane (nxt (nxt pIdx)))) :
    ((planarSplitEvents axis plane t pIdx).map (fun e => e.2.area)).sum = t.area ∧
      ∀ e ∈ planarSplitEvents axis plane t pIdx, eventSideOk axis plane e := by
  have heps := eps_pos
  obtain ⟨hs0, hs1, hsx⟩ :
      0 ≤ intersect_ray_axisPlane (t.vertex (nxt pIdx))
          (t.vertex (nxt (nxt pIdx)) - t.vertex (nxt pIdx)) axis plane ∧
        intersect_ray_axisPlane (t.vertex (nxt pIdx))
          (t.vertex (nxt (nxt pIdx)) - t.vertex (nxt pIdx)) axis plane ≤ 1 ∧
        (V3.vmix (t.vertex (nxt pIdx)) (t.vertex (nxt (nxt pIdx)))
          (intersect_ray_axisPlane (t.vertex (nxt pIdx))
            (t.vertex (nxt (nxt pIdx)) - t.vertex (nxt pIdx)) axis plane)).nth axis
          = (plane : ℚ) := by
    rcases hside with ⟨hA, hB⟩ | ⟨hA, hB⟩
    · exact intersect_bounds_lo _ _ _ _ (lo_sep _ _ hA hn0) hB
    · exact intersect_bounds_hi _ _ _ _ (hi_sep _ _ hA hn0) hB
  set s := intersect_ray_axisPlane (t.vertex (nxt pIdx))
      (t.vertex (nxt (nxt pIdx)) - t.vertex (nxt pIdx)) axis plane with hsdef
  have hev : planarSplitEvents axis plane t pIdx =
      [(decide ((t.vertex (nxt pIdx)).nth axis ≤ (plane : ℚ)),
        ⟨t.vertex pIdx, t.vertex (nxt pIdx),
          V3.vmix (t.vertex (nxt pIdx)) (t.vertex (nxt (nxt pIdx))) s,
          t.texture pIdx, t.texture (nxt pIdx),
          V2.tmix (t.texture (nxt pIdx)) (t.texture (nxt (nxt pIdx))) s⟩),
       (!decide ((t.vertex (nxt pIdx)).nth axis ≤ (plane : ℚ)),
        ⟨t.vertex pIdx,
          V3.vmix (t.vertex (nxt pIdx)) (t.vertex (nxt (nxt pIdx))) s,
          t.vertex (nxt (nxt pIdx)), t.texture pIdx,
          V2.tmix (t.texture (nxt pIdx)) (t.texture (nxt (nxt pIdx))) s,
          t.texture (nxt (nxt pIdx))⟩)] := rfl
  have hpx := hp
  rw [isPlanarVertex, eqPlane, isZeroQ, abs_lt] at hpx
  obtain ⟨hp1, hp2⟩ := hpx
  constructor
  · rw [hev]
    simp only [List.map_cons, List.map_nil, List.sum_cons, List.sum_nil, area_mk]
    rw [add_zero, planar_pieces_area _ _ _ s hs0 hs1, vArea_rot]
  · intro e he
    rw [hev] at he
    simp only [List.mem_cons, List.not_mem_nil, or_false] at he
    rcases he with rfl | rfl
    · constructor
      · intro hflag i
        have hA : (t.vertex (nxt pIdx)).nth axis ≤ (plane : ℚ) := by
          simpa using hflag
        fin_cases i
        · show (t.vertex pIdx).nth axis ≤ (plane : ℚ) + EPSILON
          linarith
        · show (t.vertex (nxt pIdx)).nth axis ≤ (plane : ℚ) + EPSILON
          linarith
        · show (V3.vmix (t.vertex (nxt pIdx)) (t.vertex (nxt (nxt pIdx))) s).nth
            axis ≤ (plane : ℚ) + EPSILON
          rw [hsx]
          linarith
      · intro hflag i
        have hA : ¬ (t.vertex (nxt pIdx)).nth axis ≤ (plane : ℚ) := by
          simpa using hflag
        push_neg at hA
        fin_cases i
        · show (plane : ℚ) - EPSILON ≤ (t.vertex pIdx).nth axis
          linarith
        · show (plane : ℚ) - EPSILON ≤ (t.vertex (nxt pIdx)).nth axis
          linarith
        · show (plane : ℚ) - EPSILON ≤
            (V3.vmix (t.vertex (nxt pIdx)) (t.vertex (nxt (nxt pIdx))) s).nth axis
          rw [hsx]
          linarith
    · constructor
      · intro hflag i
        have hA : ¬ (t.vertex (nxt pIdx)).nth axis ≤ (plane : ℚ) := by
          simpa using hflag
        have hB : (t.vertex (nxt (nxt pIdx))).nth axis ≤ (plane : ℚ) := by
          rcases hside with ⟨hA', _⟩ | ⟨_, hB'⟩
          · exact absurd hA' hA
          · exact hB'
        fin_cases i
        · show (t.vertex pIdx).nth axis ≤ (plane : ℚ) + EPSILON
          linarith
        · show (V3.vmix (t.vertex (nxt pIdx)) (t.vertex (nxt (nxt pIdx))) s).nth
            axis ≤ (plane : ℚ) + EPSILON
          rw [hsx]
          linarith
        · show (t.vertex (nxt (nxt pIdx))).nth axis ≤ (plane : ℚ) + EPSILON
          linarith
      · intro hflag i
        have hA : (t.vertex (nxt pIdx)).nth axis ≤ (plane : ℚ) := by
          simpa using hflag
        have hB : ¬ (t.vertex (nxt (nxt pIdx))).nth axis ≤ (plane : ℚ) := by
          rcases hside with ⟨_, hB'⟩ | ⟨hA', _⟩
          · exact hB'
          · exact absurd hA hA'
        push_neg at hB
        fin_cases i
        · show (plane : ℚ) - EPSILON ≤ (t.vertex pIdx).nth axis
          linarith
        · show (plane : ℚ) - EPSILON ≤
            (V3.vmix (t.vertex (nxt pIdx)) (t.vertex (nxt (nxt pIdx))) s).nth axis
          rw [hsx]
          linarith
        · show (plane : ℚ) - EPSILON ≤ (t.vertex (nxt (nxt pIdx))).nth axis
          linarith

/-- The definitional shape of `regularSplitEvents`, abbreviating the two
intersection parameters. -/
lemma regularSplitEvents_def (t : TexturedTriangle) (axis : Fin 3) (plane : ℤ)
    (iso : Fin 3) (b : Bool) :
    regularSplitEvents axis plane t iso b =
      [(b, ⟨t.vertex iso,
        V3.vmix (t.vertex iso) (t.vertex (nxt iso))
          (intersect_ray_axisPlane (t.vertex iso)
            (t.vertex (nxt iso) - t.vertex iso) axis plane),
        V3.vmix (t.vertex iso) (t.vertex (nxt (nxt iso)))
          (intersect_ray_axisPlane (t.vertex iso)
            (t.vertex (nxt (nxt iso)) - t.vertex iso) axis plane),
        t.texture iso,
        V2.tmix (t.texture iso) (t.texture (nxt iso))
          (intersect_ray_axisPlane (t.vertex iso)
            (t.vertex (nxt iso) - t.vertex iso) axis plane),
        V2.tmix (t.texture iso) (t.texture (nxt (nxt iso)))
          (intersect_ray_axisPlane (t.vertex iso)
            (t.vertex (nxt (nxt iso)) - t.vertex iso) axis plane)⟩),
       (!b, ⟨V3.vmix (t.vertex iso) (t.vertex (nxt iso))
          (intersect_ray_axisPlane (t.vertex iso)
            (t.vertex (nxt iso) - t.vertex iso) axis plane),
        t.vertex (nxt iso), t.vertex (nxt (nxt iso)),
        V2.tmix (t.texture iso) (t.texture (nxt iso))
          (intersect_ray_axisPlane (t.vertex iso)
            (t.vertex (nxt iso) - t.vertex iso) axis plane),
        t.texture (nxt iso), t.texture (nxt (nxt iso))⟩),
       (!b, ⟨V3.vmix (t.vertex iso) (t.vertex (nxt iso))
          (intersect_ray_axisPlane (t.vertex iso)
            (t.vertex (nxt iso) - t.vertex iso) axis plane),
        V3.vmix (t.vertex iso) (t.vertex (nxt (nxt iso)))
          (intersect_ray_axisPlane (t.vertex iso)
            (t.vertex (nxt (nxt iso)) - t.vertex iso) axis plane),
        t.vertex (nxt (nxt iso)),
        V2.tmix (t.texture iso) (t.texture (nxt iso))
          (intersect_ray_axisPlane (t.vertex iso)
            (t.vertex (nxt iso) - t.vertex iso) axis plane),
        V2.tmix (t.texture iso) (t.texture (nxt (nxt iso)))
          (intersect_ray_axisPlane (t.vertex iso)
            (t.vertex (nxt (nxt iso)) - t.vertex iso) axis plane),
        t.texture (nxt (nxt iso))⟩)] := rfl

/-- The regular split conserves area exactly and respects the side bounds,
in the case of an isolated `lo` vertex. -/
lemma regularSplitEvents_props_lo (t : TexturedTriangle) (axis : Fin 3)
    (plane : ℤ) (iso : Fin 3)
    (hni : ¬ isPlanarVertex t axis plane iso)
    (hI : isLoVertex t axis plane iso)
    (hO0 : ¬ isLoVertex t axis plane (nxt iso))
    (hO1 : ¬ isLoVertex t axis plane (nxt (nxt iso))) :
    ((regularSplitEvents axis plane t iso true).map (fun e => e.2.area)).sum =
      t.area ∧
      ∀ e ∈ regularSplitEvents axis plane t iso true, eventSideOk axis plane e := by
  have heps := eps_pos
  have hsep := lo_sep _ _ hI hni
  obtain ⟨hs00, hs01, hsx0⟩ := intersect_bounds_lo (t.vertex iso)
    (t.vertex (nxt iso)) axis plane hsep hO0
  obtain ⟨hs10, hs11, hsx1⟩ := intersect_bounds_lo (t.vertex iso)
    (t.vertex (nxt (nxt iso))) axis plane hsep hO1
  have hIle : (t.vertex iso).nth axis ≤ (plane : ℚ) := hI
  have hO0gt : ¬ (t.vertex (nxt iso)).nth axis ≤ (plane : ℚ) := hO0
  have hO1gt : ¬ (t.vertex (nxt (nxt iso))).nth axis ≤ (plane : ℚ) := hO1
  push_neg at hO0gt hO1gt
  rw [regularSplitEvents_def]
  constructor
  · simp only [List.map_cons, List.map_nil, List.sum_cons, List.sum_nil, area_mk]
    rw [add_zero, ← add_assoc,
      regular_pieces_area _ _ _ _ _ hs00 hs01 hs10 hs11, vArea_rot]
  · intro e he
    simp only [List.mem_cons, List.not_mem_nil, or_false] at he
    rcases he with rfl | rfl | rfl
    · refine ⟨fun _ i => ?_, fun hflag => by simp at hflag⟩
      fin_cases i
      · show (t.vertex iso).nth axis ≤ (plane : ℚ) + EPSILON
        linarith
      · show (V3.vmix (t.vertex iso) (t.vertex (nxt iso)) _).nth axis ≤
          (plane : ℚ) + EPSILON
        rw [hsx0]
        linarith
      · show (V3.vmix (t.vertex iso) (t.vertex (nxt (nxt iso))) _).nth axis ≤
          (plane : ℚ) + EPSILON
        rw [hsx1]
        linarith
    · refine ⟨fun hflag => by simp at hflag, fun _ i => ?_⟩
      fin_cases i
      · show (plane : ℚ) - EPSILON ≤
          (V3.vmix (t.vertex iso) (t.vertex (nxt iso)) _).nth axis
        rw [hsx0]
        linarith
      · show (plane : ℚ) - EPSILON ≤ (t.vertex (nxt iso)).nth axis
        linarith
      · show (plane : ℚ) - EPSILON ≤ (t.vertex (nxt (nxt iso))).nth axis
        linarith
    · refine ⟨fun hflag => by simp at hflag, fun _ i => ?_⟩
      fin_cases i
      · show (plane : ℚ) - EPSILON ≤
          (V3.vmix (t.vertex iso) (t.vertex (nxt iso)) _).nth axis
        rw [hsx0]
        linarith
      · show (plane : ℚ) - EPSILON ≤
          (V3.vmix (t.vertex iso) (t.vertex (nxt (nxt iso))) _).nth axis
        rw [hsx1]
        linarith
      · show (plane : ℚ) - EPSILON ≤ (t.vertex (nxt (nxt iso))).nth axis
        linarith

/-- The regular split conserves area exactly and respects the side bounds,
in the case of an isolated `hi` vertex. -/
lemma regularSplitEvents_props_hi (t : TexturedTriangle) (axis : Fin 3)
    (plane : ℤ) (iso : Fin 3)
    (hni : ¬ isPlanarVertex t axis plane iso)
    (hI : ¬ isLoVertex t axis plane iso)
    (hO0 : isLoVertex t axis plane (nxt iso))
    (hO1 : isLoVertex t axis plane (nxt (nxt iso))) :
    ((regularSplitEvents axis plane t iso false).map (fun e => e.2.area)).sum =
      t.area ∧
      ∀ e ∈ regularSplitEvents axis plane t iso false,
        eventSideOk axis plane e := by
  have heps := eps_pos
  have hsep := hi_sep _ _ hI hni
  obtain ⟨hs00, hs01, hsx0⟩ := intersect_bounds_hi (t.vertex iso)
    (t.vertex (nxt iso)) axis plane hsep hO0
  obtain ⟨hs10, hs11, hsx1⟩ := intersect_bounds_hi (t.vertex iso)
    (t.vertex (nxt (nxt iso))) axis plane hsep hO1
  have hIgt : ¬ (t.vertex iso).nth axis ≤ (plane : ℚ) := hI
  have hO0le : (t.vertex (nxt iso)).nth axis ≤ (plane : ℚ) := hO0
  have hO1le : (t.vertex (nxt (nxt iso))).nth axis ≤ (plane : ℚ) := hO1
  push_neg at hIgt
  rw [regularSplitEvents_def]
  constructor
  · simp only [List.map_cons, List.map_nil, List.sum_cons, List.sum_nil, area_mk]
    rw [add_zero, ← add_assoc,
      regular_pieces_area _ _ _ _ _ hs00 hs01 hs10 hs11, vArea_rot]
  · intro e he
    simp only [List.mem_cons, List.not_mem_nil, or_false] at he
    rcases he with rfl | rfl | rfl
    · refine ⟨fun hflag => by simp at hflag, fun _ i => ?_⟩
      fin_cases i
      · show (plane : ℚ) - EPSILON ≤ (t.vertex iso).nth axis
        linarith
      · show (plane : ℚ) - EPSILON ≤
          (V3.vmix (t.vertex iso) (t.vertex (nxt iso)) _).nth axis
        rw [hsx0]
        linarith
      · show (plane : ℚ) - EPSILON ≤
          (V3.vmix (t.vertex iso) (t.vertex (nxt (nxt iso))) _).nth axis
        rw [hsx1]
        linarith
    · refine ⟨fun _ i => ?_, fun hflag => by simp at hflag⟩
      fin_cases i
      · show (V3.vmix (t.vertex iso) (t.vertex (nxt iso)) _).nth axis ≤
          (plane : ℚ) + EPSILON
        rw [hsx0]
        linarith
      · show (t.vertex (nxt iso)).nth axis ≤ (plane : ℚ) + EPSILON
        linarith
      · show (t.vertex (nxt (nxt iso))).nth axis ≤ (plane : ℚ) + EPSILON
        linarith
    · refine ⟨fun _ i => ?_, fun hflag => by simp at hflag⟩
      fin_cases i
      · show (V3.vmix (t.vertex iso) (t.vertex (nxt iso)) _).nth axis ≤
          (plane : ℚ) + EPSILON
        rw [hsx0]
        linarith
      · show (V3.vmix (t.vertex iso) (t.vertex (nxt (nxt iso))) _).nth axis ≤
          (plane : ℚ) + EPSILON
        rw [hsx1]
        linarith
      · show (t.vertex (nxt (nxt iso))).nth axis ≤ (plane : ℚ) + EPSILON
        linarith

lemma planar3_all (t : TexturedTriangle) (axis : Fin 3) (plane : ℤ)
    (h : planarCount t axis plane = 3) : ∀ i, isPlanarVertex t axis plane i := by
  intro i
  have e0 := b2n_eq_one_iff (isPlanarVertex t axis plane 0)
  have e1 := b2n_eq_one_iff (isPlanarVertex t axis plane 1)
  have e2 := b2n_eq_one_iff (isPlanarVertex t axis plane 2)
  have b0 := b2n_le_one (isPlanarVertex t axis plane 0)
  have b1 := b2n_le_one (isPlanarVertex t axis plane 1)
  have b2 := b2n_le_one (isPlanarVertex t axis plane 2)
  unfold planarCount at h
  fin_cases i
  · exact e0.1 (by omega)
  · exact e1.1 (by omega)
  · exact e2.1 (by omega)

lemma planar0_none (t : TexturedTriangle) (axis : Fin 3) (plane : ℤ)
    (h : planarCount t axis plane = 0) : ∀ i, ¬ isPlanarVertex t axis plane i := by
  intro i
  have e0 := b2n_eq_zero_iff (isPlanarVertex t axis plane 0)
  have e1 := b2n_eq_zero_iff (isPlanarVertex t axis plane 1)
  have e2 := b2n_eq_zero_iff (isPlanarVertex t axis plane 2)
  unfold planarCount at h
  fin_cases i
  · exact e0.1 (by omega)
  · exact e1.1 (by omega)
  · exact e2.1 (by omega)

lemma lo3_all (t : TexturedTriangle) (axis : Fin 3) (plane : ℤ)
    (h : loCount t axis plane = 3) : ∀ i, isLoVertex t axis plane i := by
  intro i
  have e0 := b2n_eq_one_iff (isLoVertex t axis plane 0)
  have e1 := b2n_eq_one_iff (isLoVertex t axis plane 1)
  have e2 := b2n_eq_one_iff (isLoVertex t axis plane 2)
  have b0 := b2n_le_one (isLoVertex t axis plane 0)
  have b1 := b2n_le_one (isLoVertex t axis plane 1)
  have b2 := b2n_le_one (isLoVertex t axis plane 2)
  unfold loCount at h
  fin_cases i
  · exact e0.1 (by omega)
  · exact e1.1 (by omega)
  · exact e2.1 (by omega)

lemma lo0_none (t : TexturedTriangle) (axis : Fin 3) (plane : ℤ)
    (h : loCount t axis plane = 0) : ∀ i, ¬ isLoVertex t axis plane i := by
  intro i
  have e0 := b2n_eq_zero_iff (isLoVertex t axis plane 0)
  have e1 := b2n_eq_zero_iff (isLoVertex t axis plane 1)
  have e2 := b2n_eq_zero_iff (isLoVertex t axis plane 2)
  unfold loCount at h
  fin_cases i
  · exact e0.1 (by omega)
  · exact e1.1 (by omega)
  · exact e2.1 (by omega)

lemma planarCount_le_three (t : TexturedTriangle) (axis : Fin 3) (plane : ℤ) :
    planarCount t axis plane ≤ 3 := by
  have b0 := b2n_le_one (isPlanarVertex t axis plane 0)
  have b1 := b2n_le_one (isPlanarVertex t axis plane 1)
  have b2 := b2n_le_one (isPlanarVertex t axis plane 2)
  unfold planarCount
  omega

lemma loCount_le_three (t : TexturedTriangle) (axis : Fin 3) (plane : ℤ) :
    loCount t axis plane ≤ 3 := by
  have b0 := b2n_le_one (isLoVertex t axis plane 0)
  have b1 := b2n_le_one (isLoVertex t axis plane 1)
  have b2 := b2n_le_one (isLoVertex t axis plane 2)
  unfold loCount
  omega

lemma lo1_cases (t : TexturedTriangle) (axis : Fin 3) (plane : ℤ)
    (h : loCount t axis plane = 1) :
    (isLoVertex t axis plane 0 ∧ ¬ isLoVertex t axis plane 1 ∧
        ¬ isLoVertex t axis plane 2) ∨
    (¬ isLoVertex t axis plane 0 ∧ isLoVertex t axis plane 1 ∧
        ¬ isLoVertex t axis plane 2) ∨
    (¬ isLoVertex t axis plane 0 ∧ ¬ isLoVertex t axis plane 1 ∧
        isLoVertex t axis plane 2) := by
  unfold loCount at h
  by_cases h0 : isLoVertex t axis plane 0 <;>
    by_cases h1 : isLoVertex t axis plane 1 <;>
      by_cases h2 : isLoVertex t axis plane 2 <;>
        simp [b2n, h0, h1, h2] at h ⊢ <;> tauto

lemma lo2_cases (t : TexturedTriangle) (axis : Fin 3) (plane : ℤ)
    (h : loCount t axis plane = 2) :
    (¬ isLoVertex t axis plane 0 ∧ isLoVertex t axis plane 1 ∧
        isLoVertex t axis plane 2) ∨
    (isLoVertex t axis plane 0 ∧ ¬ isLoVertex t axis plane 1 ∧
        isLoVertex t axis plane 2) ∨
    (isLoVertex t axis plane 0 ∧ isLoVertex t axis plane 1 ∧
        ¬ isLoVertex t axis plane 2) := by
  unfold loCount at h
  by_cases h0 : isLoVertex t axis plane 0 <;>
    by_cases h1 : isLoVertex t axis plane 1 <;>
      by_cases h2 : isLoVertex t axis plane 2 <;>
        simp [b2n, h0, h1, h2] at h ⊢ <;> tauto

lemma planar_bounds (t : TexturedTriangle) (axis : Fin 3) (plane : ℤ) (i : Fin 3)
    (h : isPlanarVertex t axis plane i) :
    (plane : ℚ) - EPSILON ≤ (t.vertex i).nth axis ∧
      (t.vertex i).nth axis ≤ (plane : ℚ) + EPSILON := by
  rw [isPlanarVertex, eqPlane, isZeroQ, abs_lt] at h
  exact ⟨by linarith [h.1], by linarith [h.2]⟩

/-- In the one-planar-vertex case with the two non-planar vertices on
opposite sides, `splitTriangle` reaches the `planarSplitEvents` emission. -/
lemma splitEvents_planar1_split (t : TexturedTriangle) (axis : Fin 3) (plane : ℤ)
    (h : planarCount t axis plane = 1) (p : Fin 3)
    (hp : isPlanarVertex t axis plane p)
    (hside : (isLoVertex t axis plane (nxt p) ∧
        ¬ isLoVertex t axis plane (nxt (nxt p))) ∨
      (¬ isLoVertex t axis plane (nxt p) ∧
        isLoVertex t axis plane (nxt (nxt p)))) :
    splitEvents axis plane t = planarSplitEvents axis plane t p := by
  have h3 : planarCount t axis plane ≠ 3 := by omega
  have h2 : planarCount t axis plane ≠ 2 := by omega
  rcases planar1_cases t axis plane h with ⟨c0, c1, c2⟩ | ⟨c0, c1, c2⟩ | ⟨c0, c1, c2⟩
  · have hp0 : p = 0 := by
      fin_cases p
      · rfl
      · exact absurd hp c1
      · exact absurd hp c2
    subst hp0
    have hb1 : b2n (isLoVertex t axis plane 1) + b2n (isLoVertex t axis plane 2) = 1 := by
      have e1t := b2n_eq_one_iff (isLoVertex t axis plane 1)
      have e1f := b2n_eq_zero_iff (isLoVertex t axis plane 1)
      have e2t := b2n_eq_one_iff (isLoVertex t axis plane 2)
      have e2f := b2n_eq_zero_iff (isLoVertex t axis plane 2)
      rcases hside with ⟨hA, hB⟩ | ⟨hA, hB⟩
      · rw [e1t.2 hA, e2f.2 hB]
      · rw [e1f.2 hA, e2t.2 hB]
    have hl0 : loCount t axis plane ≠ 0 := by
      unfold loCount
      have b0 := b2n_le_one (isLoVertex t axis plane 0)
      omega
    have hl3 : loCount t axis plane ≠ 3 := by
      unfold loCount
      have b0 := b2n_le_one (isLoVertex t axis plane 0)
      omega
    unfold splitEvents
    rw [if_neg h3, if_neg hl0, if_neg hl3, if_neg h2, if_pos h]
    simp only [c0, if_true, nxt, hb1]
    norm_num
  · have hp1 : p = 1 := by
      fin_cases p
      · exact absurd hp c0
      · rfl
      · exact absurd hp c2
    subst hp1
    have hb1 : b2n (isLoVertex t axis plane 2) + b2n (isLoVertex t axis plane 0) = 1 := by
      have e1t := b2n_eq_one_iff (isLoVertex t axis plane 2)
      have e1f := b2n_eq_zero_iff (isLoVertex t axis plane 2)
      have e2t := b2n_eq_one_iff (isLoVertex t axis plane 0)
      have e2f := b2n_eq_zero_iff (isLoVertex t axis plane 0)
      rcases hside with ⟨hA, hB⟩ | ⟨hA, hB⟩
      · rw [e1t.2 hA, e2f.2 hB]
      · rw [e1f.2 hA, e2t.2 hB]
    have hl0 : loCount t axis plane ≠ 0 := by
      unfold loCount
      have b0 := b2n_le_one (isLoVertex t axis plane 1)
      omega
    have hl3 : loCount t axis plane ≠ 3 := by
      unfold loCount
      have b0 := b2n_le_one (isLoVertex t axis plane 1)
      omega
    unfold splitEvents
    rw [if_neg h3, if_neg hl0, if_neg hl3, if_neg h2, if_pos h]
    simp only [c0, c1, if_true, if_false, ite_false, ite_true, nxt, hb1]
    norm_num
  · have hp2 : p = 2 := by
      fin_cases p
      · exact absurd hp c0
      · exact absurd hp c1
      · rfl
    subst hp2
    have hb1 : b2n (isLoVertex t axis plane 0) + b2n (isLoVertex t axis plane 1) = 1 := by
      have e1t := b2n_eq_one_iff (isLoVertex t axis plane 0)
      have e1f := b2n_eq_zero_iff (isLoVertex t axis plane 0)
      have e2t := b2n_eq_one_iff (isLoVertex t axis plane 1)
      have e2f := b2n_eq_zero_iff (isLoVertex t axis plane 1)
      rcases hside with ⟨hA, hB⟩ | ⟨hA, hB⟩
      · rw [e1t.2 hA, e2f.2 hB]
      · rw [e1f.2 hA, e2t.2 hB]
    have hl0 : loCount t axis plane ≠ 0 := by
      unfold loCount
      have b0 := b2n_le_one (isLoVertex t axis plane 2)
      omega
    have hl3 : loCount t axis plane ≠ 3 := by
      unfold loCount
      have b0 := b2n_le_one (isLoVertex t axis plane 2)
      omega
    unfold splitEvents
    rw [if_neg h3, if_neg hl0, if_neg hl3, if_neg h2, if_pos h]
    simp only [c0, c1, c2, if_true, if_false, ite_false, ite_true, nxt, hb1]
    norm_num

/-- In the regular case with a single `lo` vertex, `splitTriangle` reaches
the `regularSplitEvents` emission with that vertex isolated on the `lo`
side. -/
lemma splitEvents_regular_lo (t : TexturedTriangle) (axis : Fin 3) (plane : ℤ)
    (h3 : planarCount t axis plane ≠ 3) (h2 : planarCount t axis plane ≠ 2)
    (h1 : planarCount t axis plane ≠ 1) (hl : loCount t axis plane = 1)
    (iso : Fin 3) (hiso : isLoVertex t axis plane iso)
    (ho0 : ¬ isLoVertex t axis plane (nxt iso))
    (ho1 : ¬ isLoVertex t axis plane (nxt (nxt iso))) :
    splitEvents axis plane t = regularSplitEvents axis plane t iso true := by
  have hl0 : loCount t axis plane ≠ 0 := by omega
  have hl3 : loCount t axis plane ≠ 3 := by omega
  unfold splitEvents
  rw [if_neg h3, if_neg hl0, if_neg hl3, if_neg h2, if_neg h1]
  fin_cases iso
  · have hiso' : isLoVertex t axis plane 0 := hiso
    simp only [hl]
    norm_num [hiso']
  · have hiso' : isLoVertex t axis plane 1 := hiso
    have hn0 : ¬ isLoVertex t axis plane 0 := ho1
    simp only [hl]
    norm_num [hiso', hn0]
  · have hn0 : ¬ isLoVertex t axis plane 0 := ho0
    have hn1 : ¬ isLoVertex t axis plane 1 := ho1
    simp only [hl]
    norm_num [hn0, hn1]
    rfl

/-- In the regular case with a single `hi` vertex, `splitTriangle` reaches
the `regularSplitEvents` emission with that vertex isolated on the `hi`
side. -/
lemma splitEvents_regular_hi (t : TexturedTriangle) (axis : Fin 3) (plane : ℤ)
    (h3 : planarCount t axis plane ≠ 3) (h2 : planarCount t axis plane ≠ 2)
    (h1 : planarCount t axis plane ≠ 1) (hl : loCount t axis plane = 2)
    (iso : Fin 3) (hiso : ¬ isLoVertex t axis plane iso)
    (ho0 : isLoVertex t axis plane (nxt iso))
    (ho1 : isLoVertex t axis plane (nxt (nxt iso))) :
    splitEvents axis plane t = regularSplitEvents axis plane t iso false := by
  have hl0 : loCount t axis plane ≠ 0 := by omega
  have hl3 : loCount t axis plane ≠ 3 := by omega
  have hlne : ¬ loCount t axis plane = 1 := by omega
  unfold splitEvents
  rw [if_neg h3, if_neg hl0, if_neg hl3, if_neg h2, if_neg h1]
  fin_cases iso
  · have hiso' : ¬ isLoVertex t axis plane 0 := hiso
    norm_num [hlne, hiso']
  · have hiso' : ¬ isLoVertex t axis plane 1 := hiso
    have hn0 : isLoVertex t axis plane 0 := ho1
    norm_num [hlne, hiso', hn0]
  · have hn0 : isLoVertex t axis plane 0 := ho0
    have hn1 : isLoVertex t axis plane 1 := ho1
    norm_num [hlne, hn0, hn1]
    rfl

lemma eventSideOk_whole_lo (t : TexturedTriangle) (axis : Fin 3) (plane : ℤ)
    (h : ∀ i, isLoVertex t axis plane i ∨ isPlanarVertex t axis plane i) :
    eventSideOk axis plane (true, t) := by
  constructor
  · intro _ i
    show (t.vertex i).nth axis ≤ (plane : ℚ) + EPSILON
    rcases h i with hlo | hpl
    · have h' : (t.vertex i).nth axis ≤ (plane : ℚ) := hlo
      have := eps_pos
      linarith
    · exact (planar_bounds t axis plane i hpl).2
  · intro hflag
    exact absurd hflag (by simp)

lemma eventSideOk_whole_hi (t : TexturedTriangle) (axis : Fin 3) (plane : ℤ)
    (h : ∀ i, ¬ isLoVertex t axis plane i ∨ isPlanarVertex t axis plane i) :
    eventSideOk axis plane (false, t) := by
  constructor
  · intro hflag
    exact absurd hflag (by simp)
  · intro _ i
    show (plane : ℚ) - EPSILON ≤ (t.vertex i).nth axis
    rcases h i with hhi | hpl
    · have h' : ¬ (t.vertex i).nth axis ≤ (plane : ℚ) := hhi
      push_neg at h'
      have := eps_pos
      linarith
    · exact (planar_bounds t axis plane i hpl).1

/-- Every `splitTriangle` call conserves area exactly across its push
events, and each event's triangle satisfies the side bound of its sink. -/
lemma splitEvents_props (t : TexturedTriangle) (axis : Fin 3) (plane : ℤ) :
    ((splitEvents axis plane t).map (fun e => e.2.area)).sum = t.area ∧
      ∀ e ∈ splitEvents axis plane t, eventSideOk axis plane e := by
  by_cases hp3 : planarCount t axis plane = 3
  · rw [splitEvents_planar3 t axis plane hp3]
    refine ⟨by simp, ?_⟩
    intro e he
    simp only [List.mem_singleton] at he
    subst he
    exact eventSideOk_whole_lo t axis plane
      (fun i => Or.inr (planar3_all t axis plane hp3 i))
  by_cases hl0 : loCount t axis plane = 0
  · rw [splitEvents_all_hi t axis plane (lo0_none t axis plane hl0) hp3]
    refine ⟨by simp, ?_⟩
    intro e he
    simp only [List.mem_singleton] at he
    subst he
    exact eventSideOk_whole_hi t axis plane
      (fun i => Or.inl (lo0_none t axis plane hl0 i))
  by_cases hl3 : loCount t axis plane = 3
  · rw [splitEvents_all_lo t axis plane (lo3_all t axis plane hl3)]
    refine ⟨by simp, ?_⟩
    intro e he
    simp only [List.mem_singleton] at he
    subst he
    exact eventSideOk_whole_lo t axis plane
      (fun i => Or.inl (lo3_all t axis plane hl3 i))
  by_cases hp2 : planarCount t axis plane = 2
  · rcases planar2_cases t axis plane hp2 with ⟨c0, c1, c2⟩ | ⟨c0, c1, c2⟩ |
      ⟨c0, c1, c2⟩
    · rw [splitEvents_planar2 t axis plane hp2 0 c0]
      refine ⟨by simp, ?_⟩
      intro e he
      simp only [List.mem_singleton] at he
      subst he
      by_cases hj : isLoVertex t axis plane 0
      · rw [decide_eq_true hj]
        refine eventSideOk_whole_lo t axis plane (fun i => ?_)
        fin_cases i
        · exact Or.inl hj
        · exact Or.inr c1
        · exact Or.inr c2
      · rw [decide_eq_false hj]
        refine eventSideOk_whole_hi t axis plane (fun i => ?_)
        fin_cases i
        · exact Or.inl hj
        · exact Or.inr c1
        · exact Or.inr c2
    · rw [splitEvents_planar2 t axis plane hp2 1 c1]
      refine ⟨by simp, ?_⟩
      intro e he
      simp only [List.mem_singleton] at he
      subst he
      by_cases hj : isLoVertex t axis plane 1
      · rw [decide_eq_true hj]
        refine eventSideOk_whole_lo t axis plane (fun i => ?_)
        fin_cases i
        · exact Or.inr c0
        · exact Or.inl hj
        · exact Or.inr c2
      · rw [decide_eq_false hj]
        refine eventSideOk_whole_hi t axis plane (fun i => ?_)
        fin_cases i
        · exact Or.inr c0
        · exact Or.inl hj
        · exact Or.inr c2
    · rw [splitEvents_planar2 t axis plane hp2 2 c2]
      refine ⟨by simp, ?_⟩
      intro e he
      simp only [List.mem_singleton] at he
      subst he
      by_cases hj : isLoVertex t axis plane 2
      · rw [decide_eq_true hj]
        refine eventSideOk_whole_lo t axis plane (fun i => ?_)
        fin_cases i
        · exact Or.inr c0
        · exact Or.inr c1
        · exact Or.inl hj
      · rw [decide_eq_false hj]
        refine eventSideOk_whole_hi t axis plane (fun i => ?_)
        fin_cases i
        · exact Or.inr c0
        · exact Or.inr c1
        · exact Or.inl hj
  by_cases hp1 : planarCount t axis plane = 1
  · rcases planar1_cases t axis plane hp1 with ⟨c0, c1, c2⟩ | ⟨c0, c1, c2⟩ |
      ⟨c0, c1, c2⟩
    · by_cases ha : isLoVertex t axis plane 1 <;>
        by_cases hb : isLoVertex t axis plane 2
      · rw [splitEvents_planar1_lo t axis plane hp1 (fun i hi => by
          fin_cases i
          · exact absurd c0 hi
          · exact ha
          · exact hb)]
        refine ⟨by simp, ?_⟩
        intro e he
        simp only [List.mem_singleton] at he
        subst he
        refine eventSideOk_whole_lo t axis plane (fun i => ?_)
        fin_cases i
        · exact Or.inr c0
        · exact Or.inl ha
        · exact Or.inl hb
      · rw [splitEvents_planar1_split t axis plane hp1 0 c0 (Or.inl ⟨ha, hb⟩)]
        exact planarSplitEvents_props t axis plane 0 c0 c1 (Or.inl ⟨ha, hb⟩)
      · rw [splitEvents_planar1_split t axis plane hp1 0 c0 (Or.inr ⟨ha, hb⟩)]
        exact planarSplitEvents_props t axis plane 0 c0 c1 (Or.inr ⟨ha, hb⟩)
      · rw [splitEvents_planar1_hi t axis plane hp1 (fun i hi => by
          fin_cases i
          · exact absurd c0 hi
          · exact ha
          · exact hb)]
        refine ⟨by simp, ?_⟩
        intro e he
        simp only [List.mem_singleton] at he
        subst he
        refine eventSideOk_whole_hi t axis plane (fun i => ?_)
        fin_cases i
        · exact Or.inr c0
        · exact Or.inl ha
        · exact Or.inl hb
    · by_cases ha : isLoVertex t axis plane 2 <;>
        by_cases hb : isLoVertex t axis plane 0
      · rw [splitEvents_planar1_lo t axis plane hp1 (fun i hi => by
          fin_cases i
          · exact hb
          · exact absurd c1 hi
          · exact ha)]
        refine ⟨by simp, ?_⟩
        intro e he
        simp only [List.mem_singleton] at he
        subst he
        refine eventSideOk_whole_lo t axis plane (fun i => ?_)
        fin_cases i
        · exact Or.inl hb
        · exact Or.inr c1
        · exact Or.inl ha
      · rw [splitEvents_planar1_split t axis plane hp1 1 c1 (Or.inl ⟨ha, hb⟩)]
        exact planarSplitEvents_props t axis plane 1 c1 c2 (Or.inl ⟨ha, hb⟩)
      · rw [splitEvents_planar1_split t axis plane hp1 1 c1 (Or.inr ⟨ha, hb⟩)]
        exact planarSplitEvents_props t axis plane 1 c1 c2 (Or.inr ⟨ha, hb⟩)
      · rw [splitEvents_planar1_hi t axis plane hp1 (fun i hi => by
          fin_cases i
          · exact hb
          · exact absurd c1 hi
          · exact ha)]
        refine ⟨by simp, ?_⟩
        intro e he
        simp only [List.mem_singleton] at he
        subst he
        refine eventSideOk_whole_hi t axis plane (fun i => ?_)
        fin_cases i
        · exact Or.inl hb
        · exact Or.inr c1
        · exact Or.inl ha
    · by_cases ha : isLoVertex t axis plane 0 <;>
        by_cases hb : isLoVertex t axis plane 1
      · rw [splitEvents_planar1_lo t axis plane hp1 (fun i hi => by
          fin_cases i
          · exact ha
          · exact hb
          · exact absurd c2 hi)]
        refine ⟨by simp, ?_⟩
        intro e he
        simp only [List.mem_singleton] at he
        subst he
        refine eventSideOk_whole_lo t axis plane (fun i => ?_)
        fin_cases i
        · exact Or.inl ha
        · exact Or.inl hb
        · exact Or.inr c2
      · rw [splitEvents_planar1_split t axis plane hp1 2 c2 (Or.inl ⟨ha, hb⟩)]
        exact planarSplitEvents_props t axis plane 2 c2 c0 (Or.inl ⟨ha, hb⟩)
      · rw [splitEvents_planar1_split t axis plane hp1 2 c2 (Or.inr ⟨ha, hb⟩)]
        exact planarSplitEvents_props t axis plane 2 c2 c0 (Or.inr ⟨ha, hb⟩)
      · rw [splitEvents_planar1_hi t axis plane hp1 (fun i hi => by
          fin_cases i
          · exact ha
          · exact hb
          · exact absurd c2 hi)]
        refine ⟨by simp, ?_⟩
        intro e he
        simp only [List.mem_singleton] at he
        subst he
        refine eventSideOk_whole_hi t axis plane (fun i => ?_)
        fin_cases i
        · exact Or.inl ha
        · exact Or.inl hb
        · exact Or.inr c2
  have hp0 : planarCount t axis plane = 0 := by
    have := planarCount_le_three t axis plane
    omega
  by_cases hl1 : loCount t axis plane = 1
  · rcases lo1_cases t axis plane hl1 with ⟨d0, d1, d2⟩ | ⟨d0, d1, d2⟩ |
      ⟨d0, d1, d2⟩
    · rw [splitEvents_regular_lo t axis plane hp3 hp2 hp1 hl1 0 d0 d1 d2]
      exact regularSplitEvents_props_lo t axis plane 0
        (planar0_none t axis plane hp0 0) d0 d1 d2
    · rw [splitEvents_regular_lo t axis plane hp3 hp2 hp1 hl1 1 d1 d2 d0]
      exact regularSplitEvents_props_lo t axis plane 1
        (planar0_none t axis plane hp0 1) d1 d2 d0
    · rw [splitEvents_regular_lo t axis plane hp3 hp2 hp1 hl1 2 d2 d0 d1]
      exact regularSplitEvents_props_lo t axis plane 2
        (planar0_none t axis plane hp0 2) d2 d0 d1
  · have hl2 : loCount t axis plane = 2 := by
      have := loCount_le_three t axis plane
      omega
    rcases lo2_cases t axis plane hl2 with ⟨d0, d1, d2⟩ | ⟨d0, d1, d2⟩ |
      ⟨d0, d1, d2⟩
    · rw [splitEvents_regular_hi t axis plane hp3 hp2 hp1 hl2 0 d0 d1 d2]
      exact regularSplitEvents_props_hi t axis plane 0
        (planar0_none t axis plane hp0 0) d0 d1 d2
    · rw [splitEvents_regular_hi t axis plane hp3 hp2 hp1 hl2 1 d1 d2 d0]
      exact regularSplitEvents_props_hi t axis plane 1
        (planar0_none t axis plane hp0 1) d1 d2 d0
    · rw [splitEvents_regular_hi t axis plane hp3 hp2 hp1 hl2 2 d2 d0 d1]
      exact regularSplitEvents_props_hi t axis plane 2
        (planar0_none t axis plane hp0 2) d2 d0 d1

lemma splitTriangle_none_eq (axis : Fin 3) (plane : ℤ) (t : TexturedTriangle) :
    splitTriangle .NONE axis plane t =
      ((splitEvents axis plane t).filterMap fun e =>
        if e.1 then some e.2 else none,
       (splitEvents axis plane t).filterMap fun e =>
        if e.1 then none else some e.2) := rfl

lemma filterMap_partition_area (l : List (Bool × TexturedTriangle)) :
    ((l.filterMap fun e => if e.1 then some e.2 else none).map
        TexturedTriangle.area).sum +
      ((l.filterMap fun e => if e.1 then none else some e.2).map
        TexturedTriangle.area).sum =
      (l.map fun e => e.2.area).sum := by
  induction l with
  | nil => simp
  | cons e l ih =>
    obtain ⟨b, u⟩ := e
    cases b
    · simp only [List.filterMap_cons, List.map_cons, List.sum_cons]
      norm_num
      linarith [ih]
    · simp only [List.filterMap_cons, List.map_cons, List.sum_cons]
      norm_num
      linarith [ih]

/-- Claim C7 (confirmed; the theorem is stronger than the claim, giving
exact area conservation rather than equality within `EPSILON`).  Splitting
any triangle at any axis-aligned integer plane with `DiscardMode = NONE`
conserves area: the areas of the `lo`-sink and `hi`-sink outputs sum to the
area of the input exactly.  Moreover every triangle pushed to `lo` has all
vertex coordinates at most `plane + EPSILON` along the splitting axis, and
every triangle pushed to `hi` has them at least `plane - EPSILON`. -/
theorem splitTriangle_conservation_and_sides (t : TexturedTriangle)
    (axis : Fin 3) (plane : ℤ) :
    (((splitTriangle .NONE axis plane t).1 ++
        (splitTriangle .NONE axis plane t).2).map TexturedTriangle.area).sum =
      t.area ∧
      (∀ f ∈ (splitTriangle .NONE axis plane t).1, ∀ i : Fin 3,
        (f.vertex i).nth axis ≤ (plane : ℚ) + EPSILON) ∧
      (∀ f ∈ (splitTriangle .NONE axis plane t).2, ∀ i : Fin 3,
        (plane : ℚ) - EPSILON ≤ (f.vertex i).nth axis) := by
  obtain ⟨hsum, hside⟩ := splitEvents_props t axis plane
  refine ⟨?_, ?_, ?_⟩
  · rw [List.map_append, List.sum_append, splitTriangle_none_eq,
      filterMap_partition_area, hsum]
  · intro f hf i
    rw [splitTriangle_none_eq, List.mem_filterMap] at hf
    obtain ⟨e, he, hfe⟩ := hf
    cases hb : e.1
    · rw [hb, if_neg (by simp)] at hfe
      exact absurd hfe (by simp)
    · rw [hb, if_pos rfl] at hfe
      obtain rfl : e.2 = f := Option.some_injective _ hfe
      exact (hside e he).1 hb i
  · intro f hf i
    rw [splitTriangle_none_eq, List.mem_filterMap] at hf
    obtain ⟨e, he, hfe⟩ := hf
    cases hb : e.1
    · rw [hb, if_neg (by simp)] at hfe
      obtain rfl : e.2 = f := Option.some_injective _ hfe
      exact (hside e he).2 hb i
    · rw [hb, if_pos rfl] at hfe
      exact absurd hfe (by simp)

/-- The isolated (`hi`-side) piece of splitting `exWide` at `x = 1`. -/
def exWideIso : TexturedTriangle :=
  ⟨⟨7/4, 1/4, 1/2⟩, ⟨1, 1/2, 1/2⟩, ⟨1, 1/4, 1/2⟩, zeroUv, zeroUv, zeroUv⟩

lemma splitTriangle_exWide :
    splitTriangle .NONE 0 1 exWide = ([exWideF1, exWideF2], [exWideIso]) := by
  norm_num [splitTriangle, splitEvents, planarCount, loCount,
    isPlanarVertex, isLoVertex, regularSplitEvents, intersect_ray_axisPlane,
    nxt, qmix, V3.vmix, V2.tmix, V3.sub3_def, V2.sub2_def, eqPlane, isZeroQ,
    EPSILON, b2n, abs_lt, exWide, exWideF1, exWideF2, exWideIso, zeroUv,
    V2.mk.injEq, Prod.mk.injEq, TexturedTriangle.vertex,
    TexturedTriangle.texture, V3.nth, List.filterMap_cons, List.filterMap_nil]

theorem splitTriangle_conservation_and_sides_witness :
    (((splitTriangle .NONE 0 1 exWide).1 ++
        (splitTriangle .NONE 0 1 exWide).2).map TexturedTriangle.area).sum =
      exWide.area ∧
      (exWideF1.vertex 0).nth 0 ≤ ((1 : ℤ) : ℚ) + EPSILON ∧
      ((1 : ℤ) : ℚ) - EPSILON ≤ (exWideIso.vertex 0).nth 0 := by
  refine ⟨(splitTriangle_conservation_and_sides exWide 0 1).1,
    (splitTriangle_conservation_and_sides exWide 0 1).2.1 exWideF1 ?_ 0,
    (splitTriangle_conservation_and_sides exWide 0 1).2.2 exWideIso ?_ 0⟩
  · rw [splitTriangle_exWide]
    simp
  · rw [splitTriangle_exWide]
    simp

end Obj2Voxel
